import Mathlib

/-!
Verification development for the repository's `bootstrap.py`.

Python strings are modeled as lists of characters (`Str`), Python dicts
with string keys/values as association lists (`EnvMap`, insertion order
preserved, assignment replaces in place), raised exceptions as `Except`
errors, and interactions with the outside world (filesystem, prompts,
external commands) as explicit oracle records.  External commands issued
by a module are recorded as an `Effect` list.
-/

abbrev Str := List Char

instance {ε α : Type} [DecidableEq ε] [DecidableEq α] : DecidableEq (Except ε α) := fun x y =>
  match x, y with
  | .ok a, .ok b => if h : a = b then .isTrue (by rw [h]) else .isFalse (by simp [h])
  | .error a, .error b => if h : a = b then .isTrue (by rw [h]) else .isFalse (by simp [h])
  | .ok _, .error _ => .isFalse (by simp)
  | .error _, .ok _ => .isFalse (by simp)

/-- Whitespace characters stripped by Python `str.strip()` (ASCII subset;
the inputs we reason about contain no exotic Unicode whitespace). -/
def isPySpace (c : Char) : Bool :=
  c = ' ' || c = '\t' || c = '\n' || c = '\r' || c = '\x0b' || c = '\x0c'

def dropWS (s : Str) : Str := s.dropWhile isPySpace

/-- Python `str.strip()`. -/
def pyStrip (s : Str) : Str := (dropWS ((dropWS s).reverse)).reverse

/-- Python `str.lower()` (ASCII). -/
def pyLower (s : Str) : Str := s.map Char.toLower

/-- Matching a literal prefix: `dropPre p s = some t` iff `s = p ++ t`. -/
def dropPre : Str → Str → Option Str
  | [], s => some s
  | _ :: _, [] => none
  | p :: ps, c :: cs => if c = p then dropPre ps cs else none

/-- Split at the first occurrence of `sep`: `breakOn sep s = some (a, b)`
with `s = a ++ sep :: b` and `sep ∉ a`; `none` when `sep` does not occur. -/
def breakOn (sep : Char) : Str → Option (Str × Str)
  | [] => none
  | c :: cs =>
    if c = sep then some ([], cs)
    else match breakOn sep cs with
      | some (a, b) => some (c :: a, b)
      | none => none

/-- Lazy matching of the regex fragment `([^/]+?)REST` anchored at the end:
returns the shortest nonempty slash-free prefix `g` of the input such that
`ok` accepts the remainder (mirrors a reluctant `+?` quantifier). -/
def lazyCore (ok : Str → Bool) : Str → Option Str
  | [] => none
  | c :: cs =>
    if c = '/' then none
    else if ok cs then some [c]
    else match lazyCore ok cs with
      | some g => some (c :: g)
      | none => none

def gitL : Str := ['.', 'g', 'i', 't']

def httpsPre : Str :=
  ['h', 't', 't', 'p', 's', ':', '/', '/', 'g', 'i', 't', 'h', 'u', 'b', '.', 'c', 'o', 'm', '/']

def httpPre : Str :=
  ['h', 't', 't', 'p', ':', '/', '/', 'g', 'i', 't', 'h', 'u', 'b', '.', 'c', 'o', 'm', '/']

def gitAtPre : Str :=
  ['g', 'i', 't', '@', 'g', 'i', 't', 'h', 'u', 'b', '.', 'c', 'o', 'm', ':']

/-- Remainder accepted after group 2 of `^git@github\.com:([^/]+)/([^/]+?)(?:\.git)?$`
and of `^([^/]+)/([^/]+?)(?:\.git)?$`: nothing, or a literal `.git`. -/
def tailOk23 (x : Str) : Bool := x == ([] : Str) || x == gitL

/-- Remainder accepted after group 2 of
`^https?://github\.com/([^/]+)/([^/]+?)(?:\.git)?/?$`: nothing, `.git`,
`/`, or `.git/`. -/
def tailOk1 (x : Str) : Bool :=
  x == ([] : Str) || x == gitL || x == ['/'] || x == gitL ++ ['/']

/-- Matching of `([^/]+)/([^/]+?)(?:\.git)?(TAIL)$` against the part of the
input following a recognized prefix: group 1 is everything up to the first
slash (must be nonempty), group 2 is matched lazily by `lazyCore`. -/
def parseTail (ok : Str → Bool) (t : Str) : Option (Str × Str) :=
  match breakOn '/' t with
  | none => none
  | some (ow, rest) =>
    if ow = [] then none
    else match lazyCore ok rest with
      | none => none
      | some rep => some (ow, rep)

/-- The first regex of `normalize_github_repo`:
`^https?://github\.com/([^/]+)/([^/]+?)(?:\.git)?/?$`. -/
def match1 (v : Str) : Option (Str × Str) :=
  match dropPre httpsPre v with
  | some t => parseTail tailOk1 t
  | none =>
    match dropPre httpPre v with
    | some t => parseTail tailOk1 t
    | none => none

/-- The second regex of `normalize_github_repo`:
`^git@github\.com:([^/]+)/([^/]+?)(?:\.git)?$`. -/
def match2 (v : Str) : Option (Str × Str) :=
  match dropPre gitAtPre v with
  | some t => parseTail tailOk23 t
  | none => none

/-- The third regex of `normalize_github_repo`:
`^([^/]+)/([^/]+?)(?:\.git)?$`. -/
def match3 (v : Str) : Option (Str × Str) := parseTail tailOk23 v

/-- Error message raised for an unrecognized repo format (the Python code
raises `ValueError(f"Unrecognized GitHub repo format: {value!r}")`). -/
def unrecognizedMsg (value : Str) : Str :=
  "Unrecognized GitHub repo format: '".toList ++ value ++ ['\'']

/-- Embedding of `normalize_github_repo` (bootstrap.py lines 38-56). -/
def normalize_github_repo (value : Str) : Except Str Str :=
  let v := pyStrip value
  if v = [] then .ok []
  else
    match match1 v with
    | some (o, r) => .ok (o ++ '/' :: r)
    | none =>
      match match2 v with
      | some (o, r) => .ok (o ++ '/' :: r)
      | none =>
        match match3 v with
        | some (o, r) => .ok (o ++ '/' :: r)
        | none => .error (unrecognizedMsg value)

/-- Embedding of `github_clone_url` (bootstrap.py lines 59-65). -/
def github_clone_url (org_repo visibility : Str) : Str :=
  if org_repo = [] then []
  else if visibility = "private".toList then
    "git@github.com:".toList ++ org_repo ++ ".git".toList
  else
    "https://github.com/".toList ++ org_repo ++ ".git".toList

/-- Embedding of `needs_ssh_known_hosts` (bootstrap.py lines 68-69).  The
two arguments come from `ctx.env_values.get(...)`, hence are `Option`s;
Python's truthiness test `repo_url and repo_url.startswith("git@")` is
false for both `None` and the empty string. -/
def needs_ssh_known_hosts (repo_visibility repo_url : Option Str) : Bool :=
  repo_visibility == some "private".toList ||
    (match repo_url with
     | some u => !(u == ([] : Str)) && "git@".toList.isPrefixOf u
     | none => false)

/-- First-character class of the slug regex `[a-zA-Z0-9][a-zA-Z0-9\-]*`. -/
def isSlugChar1 (c : Char) : Bool :=
  ('a' ≤ c && c ≤ 'z') || ('A' ≤ c && c ≤ 'Z') || ('0' ≤ c && c ≤ '9')

/-- Whole-string test of `re.fullmatch(r"[a-zA-Z0-9][a-zA-Z0-9\-]*", s)`. -/
def slugOk (s : Str) : Bool :=
  match s with
  | [] => false
  | c :: cs => isSlugChar1 c && cs.all (fun d => isSlugChar1 d || d = '-')

/-- Error message of `_validate_slug` (the Python code raises
`ValueError(f"{field} must be alphanumeric/dash (start with alnum). Got: {value!r}")`). -/
def slugErrMsg (fieldName value : Str) : Str :=
  fieldName ++ " must be alphanumeric/dash (start with alnum). Got: '".toList ++ value ++ ['\'']

/-- Embedding of `_validate_slug` (bootstrap.py lines 350-352). -/
def validate_slug (value fieldName : Str) : Except Str Unit :=
  if slugOk value then .ok () else .error (slugErrMsg fieldName value)

/-- Embedding of `_truthy` (bootstrap.py lines 355-356). -/
def truthy (v : Str) : Bool :=
  let t := pyLower (pyStrip v)
  t == "true".toList || t == "1".toList || t == "yes".toList || t == "y".toList

example : normalize_github_repo "https://github.com/acme/widgets.git".toList =
    .ok "acme/widgets".toList := by decide
example : normalize_github_repo "git@github.com:acme/widgets.git".toList =
    .ok "acme/widgets".toList := by decide
example : normalize_github_repo "acme/widgets".toList = .ok "acme/widgets".toList := by decide
example : normalize_github_repo "acme/widgets.git".toList = .ok "acme/widgets".toList := by decide
example : normalize_github_repo "https://github.com/acme/widgets/".toList =
    .ok "acme/widgets".toList := by decide
example : normalize_github_repo "weird value".toList =
    .error (unrecognizedMsg "weird value".toList) := by decide
example : normalize_github_repo "".toList = .ok [] := by decide
example : github_clone_url "acme/widgets".toList "public".toList =
    "https://github.com/acme/widgets.git".toList := by decide
example : github_clone_url "acme/widgets".toList "private".toList =
    "git@github.com:acme/widgets.git".toList := by decide
example : slugOk "abc-123".toList = true := by decide
example : slugOk "-bad".toList = false := by decide
example : slugOk "".toList = false := by decide
example : truthy " True ".toList = true := by decide

/-! Environment maps: Python `Dict[str, str]` as insertion-ordered
association lists.  `setE` models dict assignment (replace in place or
append), `getE` models `dict.get`. -/

abbrev EnvMap := List (Str × Str)

def getE : EnvMap → Str → Option Str
  | [], _ => none
  | (k2, v) :: rest, k => if k2 = k then some v else getE rest k

def getDE (m : EnvMap) (k d : Str) : Str := (getE m k).getD d

def setE : EnvMap → Str → Str → EnvMap
  | [], k, v => [(k, v)]
  | (k2, v2) :: rest, k, v =>
    if k2 = k then (k2, v) :: rest else (k2, v2) :: setE rest k v

/-! Env-file serialization (`_quote_env_value`, `_write_env_file`,
`_parse_env_file`, bootstrap.py lines 154-191).  The file is modeled as
its content string; `_write_env_file` is split into content generation
(the directory creation and actual disk write are I/O). -/

/-- The `.replace("\\", "\\\\")` step of `_quote_env_value`. -/
def escSlash : Str → Str
  | [] => []
  | c :: cs => if c = '\\' then '\\' :: '\\' :: escSlash cs else c :: escSlash cs

/-- The `.replace('"', '\\"')` step of `_quote_env_value`. -/
def escQuote : Str → Str
  | [] => []
  | c :: cs => if c = '"' then '\\' :: '"' :: escQuote cs else c :: escQuote cs

/-- Embedding of `_quote_env_value` (bootstrap.py lines 175-177). -/
def quote_env_value (v : Str) : Str := '"' :: (escQuote (escSlash v) ++ ['"'])

/-- Lexicographic (code-point) `≤` on strings, the order used by Python
`sorted` on `str`. -/
def strLe : Str → Str → Bool
  | [], _ => true
  | _ :: _, [] => false
  | a :: as, b :: bs => if a < b then true else if b < a then false else strLe as bs

def insertBy {α : Type} (le : α → α → Bool) (x : α) : List α → List α
  | [] => [x]
  | y :: ys => if le x y then x :: y :: ys else y :: insertBy le x ys

def sortBy {α : Type} (le : α → α → Bool) : List α → List α
  | [] => []
  | x :: xs => insertBy le x (sortBy le xs)

def envLine (k v : Str) : Str := k ++ '=' :: quote_env_value v

def envHeader : List Str :=
  ["# Generated by bootstrap.py".toList,
   "# You can edit this file and re-run bootstrap.py to reuse values.".toList,
   []]

/-- Python `"\n".join(lines)`. -/
def joinNL : List Str → Str
  | [] => []
  | [l] => l
  | l :: l2 :: ls => l ++ '\n' :: joinNL (l2 :: ls)

/-- Content written by `_write_env_file` (bootstrap.py lines 180-191):
header comments, one `k="v"` line per key in sorted key order, trailing
newline; on a dict the iteration over `sorted(values.keys())` visits each
key once, which for a key-unique association list is emission of the
key-sorted pair list. -/
def write_env_file (values : EnvMap) : Str :=
  joinNL
    (envHeader ++ (sortBy (fun a b => strLe a.1 b.1) values).map (fun kv => envLine kv.1 kv.2)
      ++ [[]])

/-- Python `str.splitlines` restricted to `'\n'` separators (the inputs we
reason about contain no other line-break characters): split on `'\n'`,
keeping interior empty lines. -/
def splitNLaux : Str → List Str
  | [] => [[]]
  | c :: cs =>
    match splitNLaux cs with
    | [] => [[c]]
    | l :: ls => if c = '\n' then [] :: l :: ls else (c :: l) :: ls

/-- Python `str.splitlines` drops a final empty piece produced by a
trailing newline. -/
def pySplitlines (s : Str) : List Str :=
  let r := splitNLaux s
  if r.getLast? = some [] then r.dropLast else r

/-- The quote-stripping step of `_parse_env_file`: if the value starts and
ends with `"` (or with `'`), take `v[1:-1]`. -/
def unquoteEnv (v : Str) : Str :=
  if (v.head? == some '"' && v.getLast? == some '"') ||
     (v.head? == some '\'' && v.getLast? == some '\'') then
    (v.drop 1).dropLast
  else v

/-- One iteration of the parsing loop of `_parse_env_file`. -/
def parseEnvLine (acc : EnvMap) (line : Str) : EnvMap :=
  let l := pyStrip line
  if l = [] then acc
  else if l.head? = some '#' then acc
  else
    match breakOn '=' l with
    | none => acc
    | some (k, v) => setE acc (pyStrip k) (unquoteEnv (pyStrip v))

/-- Embedding of `_parse_env_file` (bootstrap.py lines 154-172) applied to
the content of an existing file (a missing file yields `{}` in the code;
callers pass the content here). -/
def parse_env_file (content : Str) : EnvMap :=
  (pySplitlines content).foldl parseEnvLine []

example : parse_env_file (write_env_file [("B".toList, "y z".toList), ("A".toList, "x".toList)]) =
    [("A".toList, "x".toList), ("B".toList, "y z".toList)] := by decide
example : parse_env_file (write_env_file [("K".toList, ['\\'])]) =
    [("K".toList, ['\\', '\\'])] := by decide

/-! External effects and cluster-interaction oracles. -/

inductive Effect where
  | nsDryRun (ns : Str)
  | nsApply (ns : Str)
  | secretDryRun (ns name : Str)
  | applySecret (ns name : Str) (data : List (Str × Str)) (labels : List (Str × Str))
  | labelSecret (ns name : Str)
  | keyscan (host : Str)
  | rolloutRestart (ns deploy : Str)
  | rolloutStatus (ns deploy : Str)
  | applyManifest (path : Str)
  | warn (msg : Str)
  deriving DecidableEq

/-- Result of one provisioning step: the external commands issued, and
whether an exception escaped the step (Python: an uncaught
`CalledProcessError`). -/
structure StepOut where
  effects : List Effect
  raised : Bool
  deriving DecidableEq

/-- Oracle for the external cluster commands issued while applying a
secret: whether each underlying `subprocess.run(..., check=True)` call
succeeds, and whether the optional `yaml` module can be imported. -/
structure KubeWorld where
  nsDryRunOk : Bool
  nsApplyOk : Bool
  createSecretOk : Bool
  yamlAvailable : Bool
  applyOk : Bool
  labelOk : Bool
  deriving DecidableEq

/-- Embedding of `_ensure_namespace` (bootstrap.py lines 242-256): the
dry-run manifest generation and the apply both run inside one `try`; a
`CalledProcessError` from either is caught and logged as a warning. -/
def ensure_namespace (w : KubeWorld) (ns : Str) : StepOut :=
  if ¬w.nsDryRunOk then
    { effects := [.nsDryRun ns, .warn ("Failed ensuring namespace ".toList ++ ns)], raised := false }
  else if ¬w.nsApplyOk then
    { effects := [.nsDryRun ns, .nsApply ns,
                  .warn ("Failed ensuring namespace ".toList ++ ns)], raised := false }
  else
    { effects := [.nsDryRun ns, .nsApply ns], raised := false }

/-- Embedding of `_apply_kube_secret` (bootstrap.py lines 259-317).  The
`try` block renders a dry-run secret manifest, merges labels via the
`yaml` module when labels are requested, and applies the manifest; a
`CalledProcessError` there is caught and logged.  When labels are
requested and `import yaml` fails, the `except ImportError` fallback
re-applies the manifest and labels the live object with `check=True`
calls that are *not* wrapped in a further `try`, so a failure there
escapes the function. -/
def apply_kube_secret (w : KubeWorld) (ns name : Str) (data : List (Str × Str))
    (labels : List (Str × Str)) : StepOut :=
  let ens := ensure_namespace w ns
  let rest : StepOut :=
    if ¬w.createSecretOk then
      { effects := [.secretDryRun ns name,
                    .warn ("Failed applying Secret ".toList ++ ns ++ '/' :: name)],
        raised := false }
    else if labels ≠ [] ∧ ¬w.yamlAvailable then
      if ¬w.applyOk then
        { effects := [.secretDryRun ns name, .applySecret ns name data []], raised := true }
      else if ¬w.labelOk then
        { effects := [.secretDryRun ns name, .applySecret ns name data [], .labelSecret ns name],
          raised := true }
      else
        { effects := [.secretDryRun ns name, .applySecret ns name data [], .labelSecret ns name],
          raised := false }
    else
      if ¬w.applyOk then
        { effects := [.secretDryRun ns name, .applySecret ns name data labels,
                      .warn ("Failed applying Secret ".toList ++ ns ++ '/' :: name)],
          raised := false }
      else
        { effects := [.secretDryRun ns name, .applySecret ns name data labels], raised := false }
  { effects := ens.effects ++ rest.effects, raised := rest.raised }

/-! Process termination model: `sys.exit(n)` and an uncaught Python
exception (which terminates the interpreter with a traceback). -/

inductive Halt where
  | exited (code : Nat)
  | raised
  deriving DecidableEq

/-- Exit code of the operating-system process for a pipeline outcome: a
clean return from `main` exits 0, `sys.exit(n)` exits `n`, and an uncaught
exception makes the interpreter exit 1. -/
def exitCodeOf {α : Type} : Except Halt α → Nat
  | .ok _ => 0
  | .error (.exited n) => n
  | .error .raised => 1

/-- Embedding of `ValidationModule._check_tools` (bootstrap.py lines
855-860): the first tool missing from `PATH` causes `sys.exit(1)`. -/
def check_tools (which : Str → Bool) : List Str → Except Halt Unit
  | [] => .ok ()
  | t :: ts => if ¬which t then .error (.exited 1) else check_tools which ts

/-- Embedding of `ValidationModule._check_kube_connectivity` (bootstrap.py
lines 862-875): a failing `kubectl cluster-info` causes `sys.exit(1)`. -/
def check_kube_connectivity (clusterOk : Bool) : Except Halt Unit :=
  if clusterOk then .ok () else .error (.exited 1)

/-- Embedding of `ValidationModule.run` (bootstrap.py lines 847-853). -/
def validationRun (skip_validation : Bool) (which : Str → Bool) (clusterOk : Bool) :
    Except Halt Unit :=
  if skip_validation then .ok ()
  else do
    check_tools which ["kubectl".toList, "helm".toList]
    check_kube_connectivity clusterOk

/-- Match of `kind:\s*\S+` at the start of `s`. -/
def kindMarkerAt (s : Str) : Bool :=
  match dropPre "kind:".toList s with
  | some rest => !((rest.dropWhile isPySpace) == ([] : Str))
  | none => false

/-- Embedding of `re.search(r"kind:\s*\S+", content)`: the pattern matches
at some position of the content. -/
def hasKindMarker : Str → Bool
  | [] => false
  | c :: cs => kindMarkerAt (c :: cs) || hasKindMarker cs

/-- Embedding of `ArgoCDModule._apply_root_app` (bootstrap.py lines
817-840): no-op on a missing/empty path, `sys.exit(1)` when the manifest
file does not exist, skip without error when the content has no
`kind:` marker, otherwise one `kubectl apply -f` call (whose failure,
under `check=True`, escapes as an exception). -/
def apply_root_app (root_app_path : Option Str) (manifestExists : Bool) (content : Str)
    (applyOk : Bool) : Except Halt (List Effect) :=
  match root_app_path with
  | none => .ok []
  | some p =>
    if p = [] then .ok []
    else if ¬manifestExists then .error (.exited 1)
    else if ¬hasKindMarker content then .ok []
    else if applyOk then .ok [.applyManifest p] else .error .raised

/-- The root-application step of `ArgoCDModule.run` (bootstrap.py lines
724-725): `_apply_root_app` runs only when the resolved
`APPLY_ROOT_APP` value is the string `"true"`. -/
def argoRootStep (env : EnvMap) (manifestExists : Bool) (content : Str) (applyOk : Bool) :
    Except Halt (List Effect) :=
  if getE env "APPLY_ROOT_APP".toList == some "true".toList then
    apply_root_app (getE env "ROOT_APP_PATH".toList) manifestExists content applyOk
  else .ok []

example : hasKindMarker "apiVersion: v1\nkind: Application\n".toList = true := by decide
example : hasKindMarker "# placeholder, intentionally empty\n".toList = false := by decide
example : hasKindMarker "kind:   \n  ".toList = false := by decide

/-! Interactive prompts.  `_prompt` (bootstrap.py lines 113-123) returns
the stripped nonempty input, or the supplied default on empty input/EOF
(all call sites in `CoreModule` pass a non-`None` default, so the loop
runs exactly once).  `_prompt_bool` / `_prompt_choice` re-prompt until
the input parses; an oracle models the operator's eventual answer —
`none` meaning EOF/empty input (take the default). -/

def promptVal (ans : Option Str) (default : Str) : Str :=
  match ans with
  | none => default
  | some raw => let v := pyStrip raw; if v = [] then default else v

structure PromptOracle where
  str : Str → Option Str
  bool : Str → Option Bool
  choice : Str → Option Str

def promptS (o : PromptOracle) (text default : Str) : Str := promptVal (o.str text) default

def promptB (o : PromptOracle) (text : Str) (default : Bool) : Bool :=
  match o.bool text with
  | none => default
  | some b => b

def promptC (o : PromptOracle) (text : Str) (choices : List Str) (default : Str) : Str :=
  match o.choice text with
  | none => default
  | some v => if v ∈ choices then v else default

def VALID_VIS : List Str := ["public".toList, "private".toList]

/-- Python `a or b` on strings. -/
def pyOrS (a b : Str) : Str := if a = [] then b else a

/-- Python `a or b` where `a` is an `Optional[str]` (argparse value). -/
def pyOr (a : Option Str) (b : Str) : Str :=
  match a with
  | some s => if s = [] then b else s
  | none => b

/-- The arguments `CoreModule.run` reads from the parsed CLI namespace. -/
structure CoreArgs where
  repo_ref : Option Str
  non_interactive : Bool
  yes : Bool

/-- The nine fields `CoreModule.run` resolves before writing them to the
context. -/
structure CoreResolved where
  org : Str
  env_name : Str
  argo_ns : Str
  apply_root : Bool
  root_app_path : Str
  vis : Str
  repo : Str
  ref : Str
  url : Str

/-- The templated default root-application path
`f"gitops/clusters/{env_name}/root-app.yaml"`. -/
def rootTemplate (envN : Str) : Str :=
  "gitops/clusters/".toList ++ envN ++ "/root-app.yaml".toList

def orgPromptText : Str := "Org slug (values.<org>.yaml selector)".toList
def envPromptText : Str := "Environment name (values.<env>.yaml selector)".toList
def argoPromptText : Str := "Argo CD namespace".toList
def applyPromptText : Str := "Apply root app-of-apps".toList
def rootPromptText : Str := "Root app path".toList
def visPromptText : Str := "GitHub repo visibility".toList
def repoPromptText : Str := "GitHub repo (org/repo or URL) [optional]".toList
def refPromptText : Str := "Git ref (branch/tag/sha)".toList

/-- The common tail of `CoreModule.run` (bootstrap.py lines 430-435 plus
the record of values passed to `ctx.set_env`): final slug validation, the
root-path default, and the derived clone URL. -/
def corePost (org envN argo : Str) (applyR : Bool) (rootP vis repo ref : Str) :
    Except Str CoreResolved :=
  match validate_slug org "ORG_SLUG".toList with
  | .error e => .error e
  | .ok _ =>
    match validate_slug envN "ENV".toList with
    | .error e => .error e
    | .ok _ =>
      let root2 := if pyStrip rootP = [] then rootTemplate envN else rootP
      .ok { org := org, env_name := envN, argo_ns := argo, apply_root := applyR,
            root_app_path := root2, vis := vis, repo := repo, ref := ref,
            url := github_clone_url repo vis }

/-- Value resolution of `CoreModule.run` (bootstrap.py lines 391-435):
initial defaults from the persisted env file, the `--ref` CLI override,
the interactive prompting branch, and the common tail `corePost`.
Uncaught `ValueError`s from `_validate_slug` / `normalize_github_repo`
are the `Except.error` cases. -/
def coreResolve (args : CoreArgs) (existing : EnvMap) (o : PromptOracle) :
    Except Str CoreResolved :=
  let org0 := getDE existing "ORG_SLUG".toList "aethericforge".toList
  let env0 := getDE existing "ENV".toList "kubeadm".toList
  let argo0 := getDE existing "ARGO_NAMESPACE".toList
    (getDE existing "ARGOCD_NAMESPACE".toList "argocd".toList)
  let apply0 := truthy (getDE existing "APPLY_ROOT_APP".toList "true".toList)
  let root0 := getDE existing "ROOT_APP_PATH".toList []
  let vis0 := getDE existing "REPO_VISIBILITY".toList "public".toList
  let repo0 := getDE existing "GITHUB_REPO".toList []
  let ref0 := getDE existing "REPO_REF".toList "main".toList
  let ref1 := match args.repo_ref with
    | some s => if s ≠ [] then pyStrip s else ref0
    | none => ref0
  if ¬args.non_interactive ∧ ¬args.yes then
    let org1 := promptS o orgPromptText org0
    match validate_slug org1 "ORG_SLUG".toList with
    | .error e => .error e
    | .ok _ =>
      let env1 := promptS o envPromptText env0
      match validate_slug env1 "ENV".toList with
      | .error e => .error e
      | .ok _ =>
        let argo1 := promptS o argoPromptText argo0
        let apply1 := promptB o applyPromptText apply0
        let root1 := promptS o rootPromptText (pyOrS root0 (rootTemplate env1))
        let vis1 := promptC o visPromptText VALID_VIS
          (if vis0 ∈ VALID_VIS then vis0 else "public".toList)
        let rawRepo := promptS o repoPromptText repo0
        match (if rawRepo ≠ [] then normalize_github_repo rawRepo else .ok []) with
        | .error e => .error e
        | .ok repo1 =>
          let ref2 := promptS o refPromptText ref1
          corePost org1 env1 argo1 apply1 root1 vis1 repo1 ref2
  else
    corePost org0 env0 argo0 apply0 root0 vis0 repo0 ref1

/-- The nine `ctx.set_env` calls of `CoreModule.run` (bootstrap.py lines
437-445), in source order. -/
def applySets (env : EnvMap) (r : CoreResolved) : EnvMap :=
  setE (setE (setE (setE (setE (setE (setE (setE (setE env
    "ORG_SLUG".toList r.org)
    "ENV".toList r.env_name)
    "ARGO_NAMESPACE".toList r.argo_ns)
    "APPLY_ROOT_APP".toList (if r.apply_root then "true".toList else "false".toList))
    "ROOT_APP_PATH".toList r.root_app_path)
    "REPO_VISIBILITY".toList r.vis)
    "GITHUB_REPO".toList r.repo)
    "REPO_REF".toList r.ref)
    "GIT_REPO_URL".toList r.url

/-- Embedding of `CoreModule.run`: resolve all fields, then write them to
the context's `env_values`. -/
def coreRun (args : CoreArgs) (existing env : EnvMap) (o : PromptOracle) :
    Except Str EnvMap :=
  (coreResolve args existing o).map (applySets env)

/-! The SSH-access module. -/

/-- The arguments `SSHModule.run` reads from the parsed CLI namespace. -/
structure SSHArgs where
  ssh_key_file : Option Str
  repo_ssh_secret : Option Str
  no_known_hosts : Bool
  refresh_known_hosts : Bool
  non_interactive : Bool

/-- Oracle for the filesystem, home directory, prompt, `ssh-keyscan`, and
cluster interactions of `SSHModule.run`. -/
structure SSHWorld where
  kube : KubeWorld
  pathExists : Str → Bool
  pathIsFile : Str → Bool
  expanduser : Str → Str
  resolvePath : Str → Str
  home : Str
  khExists : Bool
  khSize : Nat
  keyscanOk : Bool
  readFile : Str → Str
  promptKey : Option Str
  rolloutRestartOk : Bool
  rolloutStatusOk : Bool

/-- Python's f-string rendering of a `dict` value that may be `None`. -/
def pyOptStr : Option Str → Str
  | some s => s
  | none => "None".toList

/-- Embedding of `SSHModule.run` (bootstrap.py lines 455-541).  Early
return when `needs_ssh_known_hosts` is false; SSH-key path resolution
(`sys.exit(2)` in non-interactive mode without a key, or when the key
file does not exist); known-hosts reuse or regeneration via `ssh-keyscan`
(`sys.exit(2)` on scan failure); repository-secret apply (labels present,
so a fallback-path failure inside `_apply_kube_secret` escapes); and the
warning-only rollout restart of `argocd-repo-server`. -/
def sshRun (args : SSHArgs) (existing env : EnvMap) (repoRoot : Str) (w : SSHWorld) :
    Except Halt (EnvMap × List Effect) :=
  let repo_vis := getE env "REPO_VISIBILITY".toList
  let repo_url := getE env "GIT_REPO_URL".toList
  if ¬needs_ssh_known_hosts repo_vis repo_url then .ok (env, [])
  else
    let sshKey0 := pyStrip (pyOr args.ssh_key_file (getDE existing "SSH_PRIVATE_KEY_FILE".toList []))
    let name0 := pyStrip
      (pyOr args.repo_ssh_secret (getDE existing "REPO_SSH_SECRET_NAME".toList "repo-git-ssh".toList))
    let secretName := if name0 = [] then "repo-git-ssh".toList else name0
    let keyStep : Except Halt Str :=
      if sshKey0 = [] then
        let dk0 := w.home ++ "/.ssh/id_ed25519".toList
        let dk := if w.pathExists dk0 then dk0 else w.home ++ "/.ssh/id_rsa".toList
        if args.non_interactive then .error (.exited 2)
        else .ok (promptVal w.promptKey (if w.pathExists dk then dk else []))
      else .ok sshKey0
    match keyStep with
    | .error h => .error h
    | .ok key1 =>
      let chk : Except Halt (Str × EnvMap) :=
        if key1 ≠ [] then
          let p := w.expanduser key1
          if ¬(w.pathExists p ∧ w.pathIsFile p) then .error (.exited 2)
          else
            let key2 := w.resolvePath p
            .ok (key2,
              setE (setE env "SSH_PRIVATE_KEY_FILE".toList key2) "REPO_SSH_SECRET_NAME".toList secretName)
        else .ok ([], env)
      match chk with
      | .error h => .error h
      | .ok (key2, env1) =>
        let khp := repoRoot ++ "/bootstrap/generated/known_hosts".toList
        let kh : Except Halt (EnvMap × List Effect) :=
          if ¬args.no_known_hosts then
            if ¬args.refresh_known_hosts ∧ w.khExists ∧ w.khSize > 0 then
              .ok (setE env1 "SSH_KNOWN_HOSTS_FILE".toList khp, [])
            else if w.keyscanOk then
              .ok (setE env1 "SSH_KNOWN_HOSTS_FILE".toList khp, [.keyscan "github.com".toList])
            else .error (.exited 2)
          else .ok (env1, [])
        match kh with
        | .error h => .error h
        | .ok (env2, effs1) =>
          if key2 ≠ [] then
            let keyContent := pyStrip (w.readFile key2)
            let khContent := if ¬args.no_known_hosts then pyStrip (w.readFile khp) else []
            let data :=
              [("type".toList, "git".toList), ("url".toList, pyOptStr repo_url),
               ("sshPrivateKey".toList, keyContent)] ++
              (if khContent ≠ [] then [("sshKnownHosts".toList, khContent)] else [])
            let labels := [("argocd.argoproj.io/secret-type".toList, "repository".toList)]
            let argoNs := getDE env "ARGO_NAMESPACE".toList "argocd".toList
            let sec := apply_kube_secret w.kube argoNs secretName data labels
            if sec.raised then .error .raised
            else
              let roll : List Effect :=
                [.rolloutRestart argoNs "argocd-repo-server".toList] ++
                (if w.rolloutRestartOk then
                   [.rolloutStatus argoNs "argocd-repo-server".toList] ++
                   (if w.rolloutStatusOk then []
                    else [.warn "Failed restarting argocd-repo-server".toList])
                 else [.warn "Failed restarting argocd-repo-server".toList])
              .ok (env2, effs1 ++ sec.effects ++ roll)
          else .ok (env2, effs1)

/-- A prompt oracle answering EOF (take every default). -/
def noPrompts : PromptOracle := ⟨fun _ => none, fun _ => none, fun _ => none⟩

example : (coreRun ⟨some "staging".toList, true, false⟩ [("ENV".toList, "prod".toList)] []
    noPrompts).toOption.bind (fun m => getE m "ENV".toList) = some "prod".toList := by decide

example : (coreRun ⟨none, true, false⟩ [] [] noPrompts).toOption.bind
    (fun m => getE m "ROOT_APP_PATH".toList) =
    some "gitops/clusters/kubeadm/root-app.yaml".toList := by decide

example : (coreRun ⟨none, true, false⟩ [("ENV".toList, "bad env".toList)] [] noPrompts).isOk =
    false := by decide

/-! Concrete run contexts, worlds, and inputs used by the claim witnesses
and counterexamples. -/

/-- A spec-side (not source-side) statement of the slug pattern
`[alnum][alnum-dash]*`, used to compare `_validate_slug` against the
claim's wording. -/
def slugSpecProp (v : Str) : Prop :=
  ∃ c cs, v = c :: cs ∧ isSlugChar1 c = true ∧ ∀ d ∈ cs, isSlugChar1 d = true ∨ d = '-'

/-- A benign SSH world: every path exists and is a regular file, path
normalization is the identity, all external commands succeed. -/
def sshTestWorld : SSHWorld :=
  { kube := ⟨true, true, true, true, true, true⟩, pathExists := fun _ => true,
    pathIsFile := fun _ => true, expanduser := id, resolvePath := id, home := "/root".toList,
    khExists := false, khSize := 0, keyscanOk := true, readFile := fun _ => "KEY".toList,
    promptKey := none, rolloutRestartOk := true, rolloutStatusOk := true }

/-- Context after `CoreModule` for a private repository with no repository
identity: the derived clone URL is empty, so it does not use the SSH
form. -/
def c1env : EnvMap := [("REPO_VISIBILITY".toList, "private".toList), ("GIT_REPO_URL".toList, [])]

def c1args : SSHArgs :=
  { ssh_key_file := some "/k".toList, repo_ssh_secret := none, no_known_hosts := true,
    refresh_known_hosts := false, non_interactive := true }

def c1run : Except Halt (EnvMap × List Effect) :=
  sshRun c1args [] c1env "/repo".toList sshTestWorld

/-- Context after `CoreModule` for a public repository. -/
def c1okEnv : EnvMap :=
  [("REPO_VISIBILITY".toList, "public".toList),
   ("GIT_REPO_URL".toList, "https://github.com/acme/widgets.git".toList)]

/-- Non-interactive SSH run with no key supplied anywhere. -/
def c4sshArgs : SSHArgs :=
  { ssh_key_file := none, repo_ssh_secret := none, no_known_hosts := false,
    refresh_known_hosts := false, non_interactive := true }

def c4env : EnvMap := [("REPO_VISIBILITY".toList, "private".toList)]

def c5args : CoreArgs := { repo_ref := some " dev ".toList, non_interactive := true, yes := false }

def c5existing : EnvMap := [("ENV".toList, "prod".toList), ("REPO_REF".toList, "feat".toList)]

def c5m : EnvMap := (coreRun c5args c5existing [] noPrompts).toOption.getD []

/-- The CLI namespace of a non-interactive run in which every value-taking
override the parser wires into `CoreModule` carries the string
`staging`. -/
def cexArgs : CoreArgs := { repo_ref := some "staging".toList, non_interactive := true, yes := false }

def c8m : EnvMap :=
  (coreRun { repo_ref := none, non_interactive := true, yes := false } [] [] noPrompts).toOption.getD []

def c6env : EnvMap :=
  [("APPLY_ROOT_APP".toList, "true".toList),
   ("ROOT_APP_PATH".toList, "gitops/clusters/dev/root-app.yaml".toList)]

/-! Helper lemmas about the string model. -/

theorem dropWS_cons (c : Char) (cs : Str) (h : isPySpace c = false) : dropWS (c :: cs) = c :: cs := by
  simp [dropWS, List.dropWhile_cons, h]

theorem pyStrip_eq_self (s : Str) (h1 : ∀ c, s.head? = some c → isPySpace c = false)
    (h2 : ∀ c, s.getLast? = some c → isPySpace c = false) : pyStrip s = s := by
  cases s with
  | nil => rfl
  | cons a t =>
    have hfront : dropWS (a :: t) = a :: t := dropWS_cons a t (h1 a rfl)
    have hrev : ∃ b u, (a :: t).reverse = b :: u := by
      have : (a :: t).reverse ≠ [] := by simp
      exact List.exists_cons_of_ne_nil this
    obtain ⟨b, u, hbu⟩ := hrev
    have hb : (a :: t).getLast? = some b := by
      rw [← List.head?_reverse, hbu]; rfl
    have hback : dropWS ((a :: t).reverse) = (a :: t).reverse := by
      rw [hbu]; exact dropWS_cons b u (h2 b hb)
    unfold pyStrip
    rw [hfront, hback, List.reverse_reverse]

theorem pyStrip_eq_self_of_all (s : Str) (h : ∀ c ∈ s, isPySpace c = false) : pyStrip s = s := by
  refine pyStrip_eq_self s (fun c hc => h c ?_) (fun c hc => h c ?_)
  · exact List.mem_of_mem_head? hc
  · exact List.mem_of_mem_getLast? hc

theorem dropPre_append (p t : Str) : dropPre p (p ++ t) = some t := by
  induction p with
  | nil => rfl
  | cons c cs ih => simp [dropPre, ih]

theorem dropPre_eq_append (p s t : Str) (h : dropPre p s = some t) : s = p ++ t := by
  induction p generalizing s with
  | nil => simpa [dropPre] using h
  | cons c cs ih =>
    cases s with
    | nil => simp [dropPre] at h
    | cons x xs =>
      by_cases hx : x = c
      · subst hx
        simp [dropPre] at h
        simpa using ih xs h
      · simp [dropPre, hx] at h

theorem dropPre_none_of_mem (a : Char) (p s : Str) (hp : a ∈ p) (hs : a ∉ s) :
    dropPre p s = none := by
  cases h : dropPre p s with
  | none => rfl
  | some t =>
    exact absurd ((dropPre_eq_append p s t h) ▸ List.mem_append_left t hp) hs

theorem dropPre_ne_head (p s : Str) (a b : Char) (hp : p.head? = some a) (hs : s.head? = some b)
    (hab : a ≠ b) : dropPre p s = none := by
  cases h : dropPre p s with
  | none => rfl
  | some t =>
    have heq := dropPre_eq_append p s t h
    rw [heq] at hs
    cases p with
    | nil => simp at hp
    | cons x xs =>
      simp [List.head?] at hp hs
      exact absurd (hp.symm.trans hs) hab

theorem breakOn_append (sep : Char) (o r : Str) (h : sep ∉ o) :
    breakOn sep (o ++ sep :: r) = some (o, r) := by
  induction o with
  | nil => simp [breakOn]
  | cons c cs ih =>
    have hc : ¬ c = sep := fun hcs => h (hcs ▸ List.mem_cons_self c cs)
    have h' : sep ∉ cs := fun hm => h (List.mem_cons_of_mem c hm)
    simp [breakOn, hc, ih h']

theorem tailOk23_false (cs : Str) (hne : cs ≠ []) (hgit : cs ≠ gitL) : tailOk23 cs = false := by
  simp [tailOk23, hne, hgit]

theorem tailOk1_false (cs : Str) (hne : cs ≠ []) (hgit : cs ≠ gitL) (hslash : '/' ∉ cs) :
    tailOk1 cs = false := by
  have h1 : cs ≠ ['/'] := fun h => hslash (h ▸ List.mem_cons_self '/' [])
  have h2 : cs ≠ gitL ++ ['/'] := by
    intro h
    exact hslash (h ▸ List.mem_append_right gitL (List.mem_cons_self '/' []))
  simp [tailOk1, hne, hgit, h1, h2]

theorem lazyCore23_self (r : Str) (h1 : r ≠ []) (h2 : '/' ∉ r) (h3 : ¬ gitL <:+ r) :
    lazyCore tailOk23 r = some r := by
  induction r with
  | nil => exact absurd rfl h1
  | cons c cs ih =>
    have hc : ¬ c = '/' := fun h => h2 (h ▸ List.mem_cons_self c cs)
    by_cases hcs : cs = []
    · subst hcs; simp [lazyCore, hc, tailOk23]
    · have hgit : cs ≠ gitL := fun h => h3 (h ▸ List.suffix_cons c cs)
      have hok : tailOk23 cs = false := tailOk23_false cs hcs hgit
      have h3' : ¬ gitL <:+ cs := fun h => h3 (h.trans (List.suffix_cons c cs))
      have h2' : '/' ∉ cs := fun h => h2 (List.mem_cons_of_mem c h)
      simp [lazyCore, hc, hok, ih hcs h2' h3']

theorem append_git_ne_gitL (cs : Str) (hcs : cs ≠ []) : cs ++ gitL ≠ gitL := by
  intro h
  have := congrArg List.length h
  simp [gitL] at this
  exact hcs this

theorem lazyCore23_git (r : Str) (h1 : r ≠ []) (h2 : '/' ∉ r) :
    lazyCore tailOk23 (r ++ gitL) = some r := by
  induction r with
  | nil => exact absurd rfl h1
  | cons c cs ih =>
    have hc : ¬ c = '/' := fun h => h2 (h ▸ List.mem_cons_self c cs)
    by_cases hcs : cs = []
    · subst hcs
      simp [lazyCore, hc, tailOk23, gitL]
    · have hok : tailOk23 (cs ++ gitL) = false := by
        refine tailOk23_false _ (by simp [hcs]) (append_git_ne_gitL cs hcs)
      have h2' : '/' ∉ cs := fun h => h2 (List.mem_cons_of_mem c h)
      simp [lazyCore, hc, hok, ih hcs h2']

theorem lazyCore1_self (r : Str) (h1 : r ≠ []) (h2 : '/' ∉ r) (h3 : ¬ gitL <:+ r) :
    lazyCore tailOk1 r = some r := by
  induction r with
  | nil => exact absurd rfl h1
  | cons c cs ih =>
    have hc : ¬ c = '/' := fun h => h2 (h ▸ List.mem_cons_self c cs)
    by_cases hcs : cs = []
    · subst hcs; simp [lazyCore, hc, tailOk1]
    · have hgit : cs ≠ gitL := fun h => h3 (h ▸ List.suffix_cons c cs)
      have h2' : '/' ∉ cs := fun h => h2 (List.mem_cons_of_mem c h)
      have hok : tailOk1 cs = false := tailOk1_false cs hcs hgit h2'
      have h3' : ¬ gitL <:+ cs := fun h => h3 (h.trans (List.suffix_cons c cs))
      simp [lazyCore, hc, hok, ih hcs h2' h3']

theorem cons_git_ne_gitSlash (d : Char) : (d :: gitL) ≠ gitL ++ ['/'] := by
  intro h
  simp only [gitL, List.cons_append, List.nil_append] at h
  injection h with h1 h2
  injection h2 with h3 _
  exact absurd h3 (by decide)

theorem lazyCore1_git (r : Str) (h1 : r ≠ []) (h2 : '/' ∉ r) :
    lazyCore tailOk1 (r ++ gitL) = some r := by
  induction r with
  | nil => exact absurd rfl h1
  | cons c cs ih =>
    have hc : ¬ c = '/' := fun h => h2 (h ▸ List.mem_cons_self c cs)
    by_cases hcs : cs = []
    · subst hcs
      simp [lazyCore, hc, tailOk1, gitL]
    · have hslash : '/' ∉ cs ++ gitL := by
        intro h
        rcases List.mem_append.mp h with h | h
        · exact h2 (List.mem_cons_of_mem c h)
        · simp [gitL] at h
      have hok : tailOk1 (cs ++ gitL) = false := by
        refine tailOk1_false _ (by simp [hcs]) (append_git_ne_gitL cs hcs) hslash
      have h2' : '/' ∉ cs := fun h => h2 (List.mem_cons_of_mem c h)
      simp [lazyCore, hc, hok, ih hcs h2']

theorem parseTail_append (ok : Str → Bool) (o rest rep : Str) (ho : o ≠ []) (h2 : '/' ∉ o)
    (hlc : lazyCore ok rest = some rep) : parseTail ok (o ++ '/' :: rest) = some (o, rep) := by
  simp [parseTail, breakOn_append '/' o rest h2, ho, hlc]

/-- Characters that occur in well-formed GitHub owner/repo identifiers:
alphanumerics, dash, underscore, dot. -/
def isSafeChar (c : Char) : Bool :=
  isSlugChar1 c || c = '-' || c = '_' || c = '.'

theorem isSafeChar_not_space (c : Char) (h : isSafeChar c = true) : isPySpace c = false := by
  by_cases h1 : c = ' '
  · subst h1; exact absurd h (by decide)
  by_cases h2 : c = '\t'
  · subst h2; exact absurd h (by decide)
  by_cases h3 : c = '\n'
  · subst h3; exact absurd h (by decide)
  by_cases h4 : c = '\r'
  · subst h4; exact absurd h (by decide)
  by_cases h5 : c = '\x0b'
  · subst h5; exact absurd h (by decide)
  by_cases h6 : c = '\x0c'
  · subst h6; exact absurd h (by decide)
  simp [isPySpace, h1, h2, h3, h4, h5, h6]

theorem httpsPre_no_ws : ∀ c ∈ httpsPre, isPySpace c = false := by decide

theorem gitAtPre_no_ws : ∀ c ∈ gitAtPre, isPySpace c = false := by decide

theorem isSafeChar_ne_colon (c : Char) (h : isSafeChar c = true) : c ≠ ':' := by
  intro h1; subst h1; exact absurd h (by decide)

theorem isSafeChar_ne_slash (c : Char) (h : isSafeChar c = true) : c ≠ '/' := by
  intro h1; subst h1; exact absurd h (by decide)

/-- The six input shapes of the normalization claim, for an owner/repo
pair built from safe characters. -/

theorem colon_not_mem_core (o r : Str) (hso : ∀ c ∈ o, isSafeChar c = true)
    (hsr : ∀ c ∈ r, isSafeChar c = true) : ':' ∉ o ++ '/' :: r := by
  intro h
  rcases List.mem_append.mp h with h | h
  · exact isSafeChar_ne_colon ':' (hso ':' h) rfl
  · rcases List.mem_cons.mp h with h | h
    · exact absurd h (by decide)
    · exact isSafeChar_ne_colon ':' (hsr ':' h) rfl

theorem ws_not_mem_core (o r : Str) (hso : ∀ c ∈ o, isSafeChar c = true)
    (hsr : ∀ c ∈ r, isSafeChar c = true) : ∀ c ∈ o ++ '/' :: r, isPySpace c = false := by
  intro c h
  rcases List.mem_append.mp h with h | h
  · exact isSafeChar_not_space c (hso c h)
  · rcases List.mem_cons.mp h with h | h
    · subst h; decide
    · exact isSafeChar_not_space c (hsr c h)

theorem safe_append_git (r : Str) (hsr : ∀ c ∈ r, isSafeChar c = true) :
    ∀ c ∈ r ++ gitL, isSafeChar c = true := by
  intro c h
  rcases List.mem_append.mp h with h | h
  · exact hsr c h
  · simp [gitL] at h
    rcases h with h | h | h | h <;> (subst h; decide)

theorem core_ne_nil (o r : Str) : o ++ '/' :: r ≠ [] := by simp

theorem slash_not_mem_of_safe (s : Str) (hs : ∀ c ∈ s, isSafeChar c = true) : '/' ∉ s :=
  fun h => isSafeChar_ne_slash '/' (hs '/' h) rfl

theorem match3_core (o r : Str) (ho : o ≠ []) (hr : r ≠ [])
    (hso : ∀ c ∈ o, isSafeChar c = true) (hsr : ∀ c ∈ r, isSafeChar c = true)
    (hgit : ¬ gitL <:+ r) : match3 (o ++ '/' :: r) = some (o, r) :=
  parseTail_append tailOk23 o r r ho (slash_not_mem_of_safe o hso)
    (lazyCore23_self r hr (slash_not_mem_of_safe r hsr) hgit)

theorem match3_core_git (o r : Str) (ho : o ≠ []) (hr : r ≠ [])
    (hso : ∀ c ∈ o, isSafeChar c = true) (hsr : ∀ c ∈ r, isSafeChar c = true) :
    match3 (o ++ '/' :: (r ++ gitL)) = some (o, r) :=
  parseTail_append tailOk23 o (r ++ gitL) r ho (slash_not_mem_of_safe o hso)
    (lazyCore23_git r hr (slash_not_mem_of_safe r hsr))

theorem normalize_plain (o r : Str) (ho : o ≠ []) (hr : r ≠ [])
    (hso : ∀ c ∈ o, isSafeChar c = true) (hsr : ∀ c ∈ r, isSafeChar c = true)
    (hgit : ¬ gitL <:+ r) :
    normalize_github_repo (o ++ '/' :: r) = .ok (o ++ '/' :: r) := by
  have hstrip := pyStrip_eq_self_of_all _ (ws_not_mem_core o r hso hsr)
  have hcolon := colon_not_mem_core o r hso hsr
  have hm1 : match1 (o ++ '/' :: r) = none := by
    simp [match1, dropPre_none_of_mem ':' httpsPre _ (by decide) hcolon,
      dropPre_none_of_mem ':' httpPre _ (by decide) hcolon]
  have hm2 : match2 (o ++ '/' :: r) = none := by
    simp [match2, dropPre_none_of_mem ':' gitAtPre _ (by decide) hcolon]
  have hm3 := match3_core o r ho hr hso hsr hgit
  simp [normalize_github_repo, hstrip, core_ne_nil o r, hm1, hm2, hm3]

theorem normalize_plain_git (o r : Str) (ho : o ≠ []) (hr : r ≠ [])
    (hso : ∀ c ∈ o, isSafeChar c = true) (hsr : ∀ c ∈ r, isSafeChar c = true) :
    normalize_github_repo (o ++ '/' :: (r ++ gitL)) = .ok (o ++ '/' :: r) := by
  have hsr' := safe_append_git r hsr
  have hstrip := pyStrip_eq_self_of_all _ (ws_not_mem_core o (r ++ gitL) hso hsr')
  have hcolon := colon_not_mem_core o (r ++ gitL) hso hsr'
  have hm1 : match1 (o ++ '/' :: (r ++ gitL)) = none := by
    simp [match1, dropPre_none_of_mem ':' httpsPre _ (by decide) hcolon,
      dropPre_none_of_mem ':' httpPre _ (by decide) hcolon]
  have hm2 : match2 (o ++ '/' :: (r ++ gitL)) = none := by
    simp [match2, dropPre_none_of_mem ':' gitAtPre _ (by decide) hcolon]
  have hm3 := match3_core_git o r ho hr hso hsr
  simp [normalize_github_repo, hstrip, core_ne_nil o (r ++ gitL), hm1, hm2, hm3]

theorem normalize_https (o r : Str) (ho : o ≠ []) (hr : r ≠ [])
    (hso : ∀ c ∈ o, isSafeChar c = true) (hsr : ∀ c ∈ r, isSafeChar c = true)
    (hgit : ¬ gitL <:+ r) :
    normalize_github_repo (httpsPre ++ (o ++ '/' :: r)) = .ok (o ++ '/' :: r) := by
  have hstrip : pyStrip (httpsPre ++ (o ++ '/' :: r)) = httpsPre ++ (o ++ '/' :: r) := by
    refine pyStrip_eq_self_of_all _ ?_
    intro c h
    rcases List.mem_append.mp h with h | h
    · exact httpsPre_no_ws c h
    · exact ws_not_mem_core o r hso hsr c h
  have hm1 : match1 (httpsPre ++ (o ++ '/' :: r)) = some (o, r) := by
    have hpt : parseTail tailOk1 (o ++ '/' :: r) = some (o, r) :=
      parseTail_append tailOk1 o r r ho (slash_not_mem_of_safe o hso)
        (lazyCore1_self r hr (slash_not_mem_of_safe r hsr) hgit)
    simp [match1, dropPre_append httpsPre (o ++ '/' :: r), hpt]
  have hne : httpsPre ++ (o ++ '/' :: r) ≠ [] := by simp [httpsPre]
  simp [normalize_github_repo, hstrip, hne, hm1]

theorem normalize_https_git (o r : Str) (ho : o ≠ []) (hr : r ≠ [])
    (hso : ∀ c ∈ o, isSafeChar c = true) (hsr : ∀ c ∈ r, isSafeChar c = true) :
    normalize_github_repo (httpsPre ++ (o ++ '/' :: (r ++ gitL))) = .ok (o ++ '/' :: r) := by
  have hsr' := safe_append_git r hsr
  have hstrip : pyStrip (httpsPre ++ (o ++ '/' :: (r ++ gitL))) =
      httpsPre ++ (o ++ '/' :: (r ++ gitL)) := by
    refine pyStrip_eq_self_of_all _ ?_
    intro c h
    rcases List.mem_append.mp h with h | h
    · exact httpsPre_no_ws c h
    · exact ws_not_mem_core o (r ++ gitL) hso hsr' c h
  have hm1 : match1 (httpsPre ++ (o ++ '/' :: (r ++ gitL))) = some (o, r) := by
    have hpt : parseTail tailOk1 (o ++ '/' :: (r ++ gitL)) = some (o, r) :=
      parseTail_append tailOk1 o (r ++ gitL) r ho (slash_not_mem_of_safe o hso)
        (lazyCore1_git r hr (slash_not_mem_of_safe r hsr))
    simp [match1, dropPre_append httpsPre (o ++ '/' :: (r ++ gitL)), hpt]
  have hne : httpsPre ++ (o ++ '/' :: (r ++ gitL)) ≠ [] := by simp [httpsPre]
  simp [normalize_github_repo, hstrip, hne, hm1]

theorem normalize_ssh (o r : Str) (ho : o ≠ []) (hr : r ≠ [])
    (hso : ∀ c ∈ o, isSafeChar c = true) (hsr : ∀ c ∈ r, isSafeChar c = true)
    (hgit : ¬ gitL <:+ r) :
    normalize_github_repo (gitAtPre ++ (o ++ '/' :: r)) = .ok (o ++ '/' :: r) := by
  have hstrip : pyStrip (gitAtPre ++ (o ++ '/' :: r)) = gitAtPre ++ (o ++ '/' :: r) := by
    refine pyStrip_eq_self_of_all _ ?_
    intro c h
    rcases List.mem_append.mp h with h | h
    · exact gitAtPre_no_ws c h
    · exact ws_not_mem_core o r hso hsr c h
  have hm1 : match1 (gitAtPre ++ (o ++ '/' :: r)) = none := by
    simp [match1,
      dropPre_ne_head httpsPre (gitAtPre ++ (o ++ '/' :: r)) 'h' 'g' rfl rfl (by decide),
      dropPre_ne_head httpPre (gitAtPre ++ (o ++ '/' :: r)) 'h' 'g' rfl rfl (by decide)]
  have hm2 : match2 (gitAtPre ++ (o ++ '/' :: r)) = some (o, r) := by
    have hpt : parseTail tailOk23 (o ++ '/' :: r) = some (o, r) :=
      parseTail_append tailOk23 o r r ho (slash_not_mem_of_safe o hso)
        (lazyCore23_self r hr (slash_not_mem_of_safe r hsr) hgit)
    simp [match2, dropPre_append gitAtPre (o ++ '/' :: r), hpt]
  have hne : gitAtPre ++ (o ++ '/' :: r) ≠ [] := by simp [gitAtPre]
  simp [normalize_github_repo, hstrip, hne, hm1, hm2]

theorem normalize_ssh_git (o r : Str) (ho : o ≠ []) (hr : r ≠ [])
    (hso : ∀ c ∈ o, isSafeChar c = true) (hsr : ∀ c ∈ r, isSafeChar c = true) :
    normalize_github_repo (gitAtPre ++ (o ++ '/' :: (r ++ gitL))) = .ok (o ++ '/' :: r) := by
  have hsr' := safe_append_git r hsr
  have hstrip : pyStrip (gitAtPre ++ (o ++ '/' :: (r ++ gitL))) =
      gitAtPre ++ (o ++ '/' :: (r ++ gitL)) := by
    refine pyStrip_eq_self_of_all _ ?_
    intro c h
    rcases List.mem_append.mp h with h | h
    · exact gitAtPre_no_ws c h
    · exact ws_not_mem_core o (r ++ gitL) hso hsr' c h
  have hm1 : match1 (gitAtPre ++ (o ++ '/' :: (r ++ gitL))) = none := by
    simp [match1,
      dropPre_ne_head httpsPre (gitAtPre ++ (o ++ '/' :: (r ++ gitL))) 'h' 'g' rfl rfl (by decide),
      dropPre_ne_head httpPre (gitAtPre ++ (o ++ '/' :: (r ++ gitL))) 'h' 'g' rfl rfl (by decide)]
  have hm2 : match2 (gitAtPre ++ (o ++ '/' :: (r ++ gitL))) = some (o, r) := by
    have hpt : parseTail tailOk23 (o ++ '/' :: (r ++ gitL)) = some (o, r) :=
      parseTail_append tailOk23 o (r ++ gitL) r ho (slash_not_mem_of_safe o hso)
        (lazyCore23_git r hr (slash_not_mem_of_safe r hsr))
    simp [match2, dropPre_append gitAtPre (o ++ '/' :: (r ++ gitL)), hpt]
  have hne : gitAtPre ++ (o ++ '/' :: (r ++ gitL)) ≠ [] := by simp [gitAtPre]
  simp [normalize_github_repo, hstrip, hne, hm1, hm2]

/-! Lemmas about `EnvMap` lookups and updates. -/

theorem getE_setE_same (m : EnvMap) (k v : Str) : getE (setE m k v) k = some v := by
  induction m with
  | nil => simp [setE, getE]
  | cons p rest ih =>
    obtain ⟨k2, v2⟩ := p
    by_cases h : k2 = k
    · subst h; simp [setE, getE]
    · simp [setE, getE, h, ih]

theorem getE_setE_ne (m : EnvMap) (k2 k v : Str) (h : k2 ≠ k) :
    getE (setE m k2 v) k = getE m k := by
  induction m with
  | nil => simp [setE, getE, h]
  | cons p rest ih =>
    obtain ⟨a, b⟩ := p
    by_cases ha : a = k2
    · subst ha; simp [setE, getE, h]
    · by_cases hk : a = k
      · subst hk; simp [setE, getE, ha]
      · simp [setE, getE, ha, hk, ih]

theorem getE_none_of_not_mem (m : EnvMap) (k : Str) (h : k ∉ m.map Prod.fst) :
    getE m k = none := by
  induction m with
  | nil => rfl
  | cons p rest ih =>
    obtain ⟨a, b⟩ := p
    have ha : a ≠ k := by
      intro hak; exact h (by simp [hak])
    have h' : k ∉ rest.map Prod.fst := fun hm => h (by simp [hm])
    simp [getE, ha, ih h']

theorem not_mem_of_getE_none (m : EnvMap) (k : Str) (h : getE m k = none) :
    k ∉ m.map Prod.fst := by
  induction m with
  | nil => simp
  | cons p rest ih =>
    obtain ⟨a, b⟩ := p
    by_cases ha : a = k
    · subst ha; simp [getE] at h
    · simp [getE, ha] at h
      intro hm
      rw [List.map_cons] at hm
      rcases List.mem_cons.mp hm with hm1 | hm1
      · exact ha hm1.symm
      · exact ih h hm1

theorem getE_some_mem (m : EnvMap) (k v : Str) (h : getE m k = some v) : (k, v) ∈ m := by
  induction m with
  | nil => simp [getE] at h
  | cons p rest ih =>
    obtain ⟨a, b⟩ := p
    by_cases ha : a = k
    · subst ha; simp [getE] at h; simp [h]
    · simp [getE, ha] at h
      exact List.mem_cons_of_mem _ (ih h)

theorem getE_of_mem_nodup (m : EnvMap) (k v : Str) (hnd : (m.map Prod.fst).Nodup)
    (h : (k, v) ∈ m) : getE m k = some v := by
  induction m with
  | nil => simp at h
  | cons p rest ih =>
    obtain ⟨a, b⟩ := p
    rcases List.mem_cons.mp h with h1 | h1
    · injection h1 with h2 h3
      subst h2
      subst h3
      simp [getE]
    · have hnd' : a ∉ rest.map Prod.fst ∧ (rest.map Prod.fst).Nodup := by
        rw [List.map_cons] at hnd
        exact List.nodup_cons.mp hnd
      have ha : a ≠ k := by
        intro hak
        subst hak
        exact hnd'.1 (List.mem_map.mpr ⟨(a, v), h1, rfl⟩)
      simp [getE, ha]
      exact ih hnd'.2 h1

theorem getE_perm (m1 m2 : EnvMap) (k : Str) (hp : List.Perm m1 m2)
    (hnd : (m1.map Prod.fst).Nodup) : getE m1 k = getE m2 k := by
  cases h2 : getE m2 k with
  | none =>
    have hnm : k ∉ m2.map Prod.fst := not_mem_of_getE_none m2 k h2
    have hnm1 : k ∉ m1.map Prod.fst := fun hm => hnm (((hp.map Prod.fst).mem_iff).mp hm)
    exact getE_none_of_not_mem m1 k hnm1
  | some v =>
    have hmem : (k, v) ∈ m1 := (hp.mem_iff).mpr (getE_some_mem m2 k v h2)
    exact getE_of_mem_nodup m1 k v hnd hmem

theorem foldl_setE_getE (ps : EnvMap) (acc : EnvMap) (k : Str)
    (hnd : (ps.map Prod.fst).Nodup) :
    getE (ps.foldl (fun a kv => setE a kv.1 kv.2) acc) k =
      match getE ps k with
      | some v => some v
      | none => getE acc k := by
  induction ps generalizing acc with
  | nil => simp [getE]
  | cons p rest ih =>
    obtain ⟨a, b⟩ := p
    have hnd' : (rest.map Prod.fst).Nodup := (List.nodup_cons.mp (by simpa using hnd)).2
    have hna : a ∉ rest.map Prod.fst := (List.nodup_cons.mp (by simpa using hnd)).1
    rw [List.foldl_cons, ih (setE acc a b) hnd']
    by_cases hk : a = k
    · subst hk
      have : getE rest a = none := getE_none_of_not_mem rest a hna
      simp [this, getE, getE_setE_same]
    · have h1 : getE ((a, b) :: rest) k = getE rest k := by simp [getE, hk]
      rw [h1, getE_setE_ne acc a k b hk]

theorem insertBy_perm {α : Type} (le : α → α → Bool) (x : α) (l : List α) :
    List.Perm (insertBy le x l) (x :: l) := by
  induction l with
  | nil => simp [insertBy]
  | cons y ys ih =>
    by_cases h : le x y = true
    · simp [insertBy, h]
    · simp only [insertBy, h]
      exact (List.Perm.cons y ih).trans (List.Perm.swap x y ys)

theorem sortBy_perm {α : Type} (le : α → α → Bool) (l : List α) :
    List.Perm (sortBy le l) l := by
  induction l with
  | nil => simp [sortBy]
  | cons x xs ih =>
    exact (insertBy_perm le x (sortBy le xs)).trans (List.Perm.cons x ih)

/-! Lemmas about line splitting and the env-file round trip. -/

theorem splitNLaux_ne_nil (s : Str) : splitNLaux s ≠ [] := by
  cases s with
  | nil => simp [splitNLaux]
  | cons c cs =>
    simp only [splitNLaux]
    cases splitNLaux cs with
    | nil => simp
    | cons l ls =>
      by_cases h : c = '\n' <;> simp [h]

theorem splitNLaux_no_nl (l : Str) (h : '\n' ∉ l) : splitNLaux l = [l] := by
  induction l with
  | nil => rfl
  | cons c cs ih =>
    have hc : ¬ c = '\n' := fun hcn => h (hcn ▸ List.mem_cons_self c cs)
    have h' : '\n' ∉ cs := fun hm => h (List.mem_cons_of_mem c hm)
    simp [splitNLaux, ih h', hc]

theorem splitNLaux_append (l rest : Str) (h : '\n' ∉ l) :
    splitNLaux (l ++ '\n' :: rest) = l :: splitNLaux rest := by
  induction l with
  | nil =>
    simp only [List.nil_append, splitNLaux]
    cases hr : splitNLaux rest with
    | nil => exact absurd hr (splitNLaux_ne_nil rest)
    | cons x xs => simp
  | cons c cs ih =>
    have hc : ¬ c = '\n' := fun hcn => h (hcn ▸ List.mem_cons_self c cs)
    have h' : '\n' ∉ cs := fun hm => h (List.mem_cons_of_mem c hm)
    simp only [List.cons_append, splitNLaux, List.append_eq]
    rw [ih h']
    simp [hc]

theorem joinNL_cons (l : Str) (l2 : Str) (ls : List Str) :
    joinNL (l :: l2 :: ls) = l ++ '\n' :: joinNL (l2 :: ls) := rfl

theorem splitNLaux_joinNL (ls : List Str) (hne : ls ≠ []) (h : ∀ l ∈ ls, '\n' ∉ l) :
    splitNLaux (joinNL ls) = ls := by
  induction ls with
  | nil => exact absurd rfl hne
  | cons l rest ih =>
    cases rest with
    | nil => exact splitNLaux_no_nl l (h l (List.mem_cons_self l []))
    | cons l2 ls2 =>
      rw [joinNL_cons, splitNLaux_append l _ (h l (List.mem_cons_self l _)),
        ih (by simp) (fun x hx => h x (List.mem_cons_of_mem l hx))]

theorem pySplitlines_joinNL (ls : List Str) (h : ∀ l ∈ ls, '\n' ∉ l) :
    pySplitlines (joinNL (ls ++ [[]])) = ls := by
  have h' : ∀ l ∈ ls ++ [[]], '\n' ∉ l := by
    intro l hl
    rcases List.mem_append.mp hl with hl | hl
    · exact h l hl
    · simp at hl; subst hl; simp
  rw [pySplitlines, splitNLaux_joinNL (ls ++ [[]]) (by simp) h']
  simp [List.getLast?_concat, List.dropLast_concat]

theorem parseEnvLine_empty (acc : EnvMap) (l : Str) (h : pyStrip l = []) :
    parseEnvLine acc l = acc := by
  simp [parseEnvLine, h]

theorem parseEnvLine_comment (acc : EnvMap) (l : Str) (h : (pyStrip l).head? = some '#') :
    parseEnvLine acc l = acc := by
  have hne : pyStrip l ≠ [] := by
    intro h0; rw [h0] at h; simp at h
  simp [parseEnvLine, hne, h]

theorem escSlash_eq_self (v : Str) (h : '\\' ∉ v) : escSlash v = v := by
  induction v with
  | nil => rfl
  | cons c cs ih =>
    have hc : ¬ c = '\\' := fun hcb => h (hcb ▸ List.mem_cons_self c cs)
    have h' : '\\' ∉ cs := fun hm => h (List.mem_cons_of_mem c hm)
    simp [escSlash, hc, ih h']

theorem escQuote_eq_self (v : Str) (h : '"' ∉ v) : escQuote v = v := by
  induction v with
  | nil => rfl
  | cons c cs ih =>
    have hc : ¬ c = '"' := fun hcb => h (hcb ▸ List.mem_cons_self c cs)
    have h' : '"' ∉ cs := fun hm => h (List.mem_cons_of_mem c hm)
    simp [escQuote, hc, ih h']

theorem quote_env_value_plain (v : Str) (h1 : '\\' ∉ v) (h2 : '"' ∉ v) :
    quote_env_value v = '"' :: (v ++ ['"']) := by
  rw [quote_env_value, escSlash_eq_self v h1, escQuote_eq_self v h2]

theorem unquoteEnv_quote (v : Str) (h1 : '\\' ∉ v) (h2 : '"' ∉ v) :
    unquoteEnv (quote_env_value v) = v := by
  rw [quote_env_value_plain v h1 h2]
  have hlast : ('"' :: (v ++ ['"'])).getLast? = some '"' := by
    rw [show ('"' :: (v ++ ['"'])) = ('"' :: v) ++ ['"'] from rfl]
    exact List.getLast?_concat _
  simp [unquoteEnv, hlast, List.dropLast_concat]

theorem parseEnvLine_entry (acc : EnvMap) (k v : Str) (hk1 : k ≠ [])
    (hk3 : k.head? ≠ some '#') (hkeq : '=' ∉ k) (hkws : ∀ c ∈ k, isPySpace c = false)
    (hv1 : '\\' ∉ v) (hv2 : '"' ∉ v) :
    parseEnvLine acc (envLine k v) = setE acc k v := by
  obtain ⟨c0, k', rfl⟩ := List.exists_cons_of_ne_nil hk1
  have hqform : quote_env_value v = '"' :: (v ++ ['"']) := quote_env_value_plain v hv1 hv2
  have hhead : ((c0 :: k') ++ '=' :: quote_env_value v).head? = some c0 := rfl
  have hlast : ((c0 :: k') ++ '=' :: quote_env_value v).getLast? = some '"' := by
    rw [hqform,
      show ((c0 :: k') ++ '=' :: ('"' :: (v ++ ['"']))) =
        (((c0 :: k') ++ '=' :: '"' :: v) ++ ['"']) from by simp]
    exact List.getLast?_concat _
  have hstrip : pyStrip ((c0 :: k') ++ '=' :: quote_env_value v) =
      (c0 :: k') ++ '=' :: quote_env_value v := by
    refine pyStrip_eq_self _ ?_ ?_
    · intro c hc
      rw [hhead] at hc
      injection hc with hc
      subst hc
      exact hkws c0 (List.mem_cons_self _ _)
    · intro c hc
      rw [hlast] at hc
      injection hc with hc
      subst hc
      decide
  have hbreak : breakOn '=' ((c0 :: k') ++ '=' :: quote_env_value v) =
      some (c0 :: k', quote_env_value v) :=
    breakOn_append '=' (c0 :: k') (quote_env_value v) hkeq
  have hkstrip : pyStrip (c0 :: k') = c0 :: k' := pyStrip_eq_self_of_all _ hkws
  have hqstrip : pyStrip (quote_env_value v) = quote_env_value v := by
    refine pyStrip_eq_self _ ?_ ?_
    · intro c hc
      rw [hqform] at hc
      injection hc with hc
      subst hc
      decide
    · intro c hc
      rw [hqform, show ('"' :: (v ++ ['"'])) = (('"' :: v) ++ ['"']) from rfl,
        List.getLast?_concat] at hc
      injection hc with hc
      subst hc
      decide
  have hne : (c0 :: k') ++ '=' :: quote_env_value v ≠ [] := by simp
  have hc0 : ¬ ((c0 :: k') ++ '=' :: quote_env_value v).head? = some '#' := by
    rw [hhead]
    intro hcontra
    injection hcontra with hcontra
    exact hk3 (by rw [hcontra]; rfl)
  show parseEnvLine acc ((c0 :: k') ++ '=' :: quote_env_value v) = _
  rw [parseEnvLine, hstrip]
  simp only [hne, hc0, if_false, hbreak, hkstrip, hqstrip, if_neg]
  rw [unquoteEnv_quote v hv1 hv2]

theorem foldl_parse_entries (ps : EnvMap) (acc : EnvMap)
    (hk : ∀ kv ∈ ps, kv.1 ≠ [] ∧ kv.1.head? ≠ some '#' ∧ '=' ∉ kv.1 ∧
      ∀ c ∈ kv.1, isPySpace c = false)
    (hv : ∀ kv ∈ ps, '\\' ∉ kv.2 ∧ '"' ∉ kv.2) :
    List.foldl parseEnvLine acc (ps.map (fun kv => envLine kv.1 kv.2)) =
      ps.foldl (fun a kv => setE a kv.1 kv.2) acc := by
  induction ps generalizing acc with
  | nil => rfl
  | cons p rest ih =>
    obtain ⟨k, v⟩ := p
    have hp := hk (k, v) (List.mem_cons_self _ _)
    have hpv := hv (k, v) (List.mem_cons_self _ _)
    simp only [List.map_cons, List.foldl_cons]
    rw [parseEnvLine_entry acc k v hp.1 hp.2.1 hp.2.2.1 hp.2.2.2 hpv.1 hpv.2]
    exact ih (setE acc k v) (fun kv hm => hk kv (List.mem_cons_of_mem _ hm))
      (fun kv hm => hv kv (List.mem_cons_of_mem _ hm))

theorem envHeader_no_nl : ∀ l ∈ envHeader, '\n' ∉ l := by decide

theorem foldl_parse_header : List.foldl parseEnvLine [] envHeader = [] := by decide

/-- The env-file round trip at the level of lookups, for maps whose keys
are nonempty, do not start with `#`, and contain no `=` or whitespace,
and whose values contain no backslash, double quote, or newline. -/
theorem env_roundtrip (m : EnvMap) (hnd : (m.map Prod.fst).Nodup)
    (hk : ∀ kv ∈ m, kv.1 ≠ [] ∧ kv.1.head? ≠ some '#' ∧ '=' ∉ kv.1 ∧
      ∀ c ∈ kv.1, isPySpace c = false)
    (hv : ∀ kv ∈ m, '\\' ∉ kv.2 ∧ '"' ∉ kv.2 ∧ '\n' ∉ kv.2) :
    ∀ k, getE (parse_env_file (write_env_file m)) k = getE m k := by
  intro k
  have hperm : List.Perm (sortBy (fun a b => strLe a.1 b.1) m) m :=
    sortBy_perm (fun a b => strLe a.1 b.1) m
  have hsk : ∀ kv ∈ sortBy (fun a b => strLe a.1 b.1) m, kv.1 ≠ [] ∧
      kv.1.head? ≠ some '#' ∧ '=' ∉ kv.1 ∧ ∀ c ∈ kv.1, isPySpace c = false :=
    fun kv hm => hk kv (hperm.mem_iff.mp hm)
  have hsv : ∀ kv ∈ sortBy (fun a b => strLe a.1 b.1) m, '\\' ∉ kv.2 ∧ '"' ∉ kv.2 ∧ '\n' ∉ kv.2 :=
    fun kv hm => hv kv (hperm.mem_iff.mp hm)
  have hlines : pySplitlines (write_env_file m) =
      envHeader ++ (sortBy (fun a b => strLe a.1 b.1) m).map (fun kv => envLine kv.1 kv.2) := by
    rw [write_env_file]
    refine pySplitlines_joinNL _ ?_
    intro l hl
    rcases List.mem_append.mp hl with hl | hl
    · exact envHeader_no_nl l hl
    · rcases List.mem_map.mp hl with ⟨kv, hkv, rfl⟩
      intro hmem
      rw [envLine, quote_env_value_plain kv.2 (hsv kv hkv).1 (hsv kv hkv).2.1] at hmem
      rcases List.mem_append.mp hmem with hm | hm
      · have := (hsk kv hkv).2.2.2 '\n' hm
        exact absurd this (by decide)
      · rcases List.mem_cons.mp hm with hm | hm
        · exact absurd hm (by decide)
        · rcases List.mem_cons.mp hm with hm | hm
          · exact absurd hm (by decide)
          · rcases List.mem_append.mp hm with hm | hm
            · exact (hsv kv hkv).2.2 hm
            · simp at hm
  rw [parse_env_file, hlines, List.foldl_append, foldl_parse_header,
    foldl_parse_entries _ [] hsk (fun kv hm => ⟨(hsv kv hm).1, (hsv kv hm).2.1⟩)]
  have hndS : ((sortBy (fun a b => strLe a.1 b.1) m).map Prod.fst).Nodup :=
    ((hperm.map Prod.fst).nodup_iff).mpr hnd
  rw [foldl_setE_getE _ [] k hndS]
  have hpg := getE_perm _ m k hperm hndS
  cases hgs : getE (sortBy (fun a b => strLe a.1 b.1) m) k with
  | none =>
    rw [hgs] at hpg
    simpa [getE] using hpg
  | some v =>
    rw [hgs] at hpg
    simpa using hpg

/-! Lemmas about `CoreModule` resolution. -/

theorem getE_applySets_ref (env : EnvMap) (r : CoreResolved) :
    getE (applySets env r) "REPO_REF".toList = some r.ref := by
  unfold applySets
  rw [getE_setE_ne _ _ _ _ (by decide), getE_setE_same]

theorem getE_applySets_root (env : EnvMap) (r : CoreResolved) :
    getE (applySets env r) "ROOT_APP_PATH".toList = some r.root_app_path := by
  unfold applySets
  rw [getE_setE_ne _ _ _ _ (by decide), getE_setE_ne _ _ _ _ (by decide),
    getE_setE_ne _ _ _ _ (by decide), getE_setE_ne _ _ _ _ (by decide), getE_setE_same]

theorem getE_applySets_env_name (env : EnvMap) (r : CoreResolved) :
    getE (applySets env r) "ENV".toList = some r.env_name := by
  unfold applySets
  rw [getE_setE_ne _ _ _ _ (by decide), getE_setE_ne _ _ _ _ (by decide),
    getE_setE_ne _ _ _ _ (by decide), getE_setE_ne _ _ _ _ (by decide),
    getE_setE_ne _ _ _ _ (by decide), getE_setE_ne _ _ _ _ (by decide),
    getE_setE_ne _ _ _ _ (by decide), getE_setE_same]

theorem corePost_ok_fields (org envN argo : Str) (applyR : Bool) (rootP vis repo ref : Str)
    (res : CoreResolved) (h : corePost org envN argo applyR rootP vis repo ref = .ok res) :
    res.env_name = envN ∧ res.ref = ref ∧
      res.root_app_path = (if pyStrip rootP = [] then rootTemplate envN else rootP) := by
  unfold corePost at h
  cases h1 : validate_slug org "ORG_SLUG".toList with
  | error e => rw [h1] at h; exact absurd h (by simp)
  | ok u =>
    rw [h1] at h
    cases h2 : validate_slug envN "ENV".toList with
    | error e => rw [h2] at h; exact absurd h (by simp)
    | ok u2 =>
      rw [h2] at h
      cases h
      exact ⟨rfl, rfl, rfl⟩

theorem rootTemplate_ne_nil (envN : Str) : rootTemplate envN ≠ [] := by
  simp [rootTemplate]

theorem corePost_ok_root_ne_nil (org envN argo : Str) (applyR : Bool) (rootP vis repo ref : Str)
    (res : CoreResolved) (h : corePost org envN argo applyR rootP vis repo ref = .ok res) :
    res.root_app_path ≠ [] := by
  obtain ⟨-, -, hroot⟩ := corePost_ok_fields org envN argo applyR rootP vis repo ref res h
  rw [hroot]
  by_cases hs : pyStrip rootP = []
  · simp [hs, rootTemplate_ne_nil]
  · simp [hs]
    intro hcontra
    subst hcontra
    exact hs rfl

theorem coreResolve_ok_corePost (args : CoreArgs) (existing : EnvMap) (o : PromptOracle)
    (res : CoreResolved) (h : coreResolve args existing o = .ok res) :
    ∃ org envN argo applyR rootP vis repo ref,
      corePost org envN argo applyR rootP vis repo ref = .ok res := by
  unfold coreResolve at h
  dsimp only at h
  repeat' split at h
  all_goals first
    | exact ⟨_, _, _, _, _, _, _, _, h⟩
    | simp at h

theorem coreRun_ok_fields (args : CoreArgs) (existing env : EnvMap) (o : PromptOracle)
    (m : EnvMap) (h : coreRun args existing env o = .ok m) :
    ∃ res, coreResolve args existing o = .ok res ∧ m = applySets env res := by
  unfold coreRun at h
  cases hres : coreResolve args existing o with
  | error e => rw [hres] at h; simp [Except.map] at h
  | ok res =>
    rw [hres] at h
    simp [Except.map] at h
    exact ⟨res, rfl, h.symm⟩

theorem coreResolve_noninteractive (args : CoreArgs) (existing : EnvMap) (o : PromptOracle)
    (h : args.non_interactive = true) :
    coreResolve args existing o = corePost
      (getDE existing "ORG_SLUG".toList "aethericforge".toList)
      (getDE existing "ENV".toList "kubeadm".toList)
      (getDE existing "ARGO_NAMESPACE".toList (getDE existing "ARGOCD_NAMESPACE".toList "argocd".toList))
      (truthy (getDE existing "APPLY_ROOT_APP".toList "true".toList))
      (getDE existing "ROOT_APP_PATH".toList [])
      (getDE existing "REPO_VISIBILITY".toList "public".toList)
      (getDE existing "GITHUB_REPO".toList [])
      (match args.repo_ref with
        | some s => if s ≠ [] then pyStrip s else getDE existing "REPO_REF".toList "main".toList
        | none => getDE existing "REPO_REF".toList "main".toList) := by
  unfold coreResolve
  rw [if_neg]
  simp [h]

theorem validate_slug_ok_iff (v f : Str) : validate_slug v f = .ok () ↔ slugOk v = true := by
  unfold validate_slug
  by_cases h : slugOk v = true
  · simp [h]
  · simp [h]

theorem slugOk_iff_spec (v : Str) : slugOk v = true ↔ slugSpecProp v := by
  cases v with
  | nil => simp [slugOk, slugSpecProp]
  | cons c cs =>
    simp only [slugOk, Bool.and_eq_true, List.all_eq_true, Bool.or_eq_true, decide_eq_true_eq]
    constructor
    · rintro ⟨h1, h2⟩
      exact ⟨c, cs, rfl, h1, fun d hd => h2 d hd⟩
    · rintro ⟨c2, cs2, heq, h1, h2⟩
      injection heq with e1 e2
      subst e1
      subst e2
      exact ⟨h1, fun d hd => h2 d hd⟩

/-! Claim theorems. -/

/-- Claim C1, amended (corrected): `SSHModule.run` is a no-op — resolved
values unchanged, no external command, no secret applied, no exit —
exactly when `needs_ssh_known_hosts` is false, i.e. when the resolved
visibility is not `private` AND the clone URL does not start with `git@`.
The original claim's conjunction (`private` AND SSH-form URL) is wrong:
the code's predicate is a disjunction, so a private visibility alone
already makes the module act. -/
theorem sshRun_c1_amended (args : SSHArgs) (existing env : EnvMap) (repoRoot : Str)
    (w : SSHWorld)
    (h : needs_ssh_known_hosts (getE env "REPO_VISIBILITY".toList)
      (getE env "GIT_REPO_URL".toList) = false) :
    sshRun args existing env repoRoot w = .ok (env, []) := by
  have hc : ¬ (needs_ssh_known_hosts (getE env "REPO_VISIBILITY".toList)
      (getE env "GIT_REPO_URL".toList) = true) := by rw [h]; simp
  unfold sshRun
  dsimp only
  rw [if_pos hc]

theorem sshRun_c1_witness :
    sshRun ⟨none, none, false, false, true⟩ [] c1okEnv "/repo".toList sshTestWorld =
      .ok (c1okEnv, []) :=
  sshRun_c1_amended ⟨none, none, false, false, true⟩ [] c1okEnv "/repo".toList sshTestWorld
    (by decide)

/-- Claim C1 counterexample: in a run context whose visibility is
`private` but whose clone URL is empty (hence not of the SSH form), the
claim as stated predicts a no-op, yet `SSHModule.run` writes
`SSH_PRIVATE_KEY_FILE` into the resolved values and issues external
commands. -/
theorem sshRun_c1_counterexample :
    "git@".toList.isPrefixOf (getDE c1env "GIT_REPO_URL".toList []) = false ∧
    getE c1env "REPO_VISIBILITY".toList = some "private".toList ∧
    getE c1env "SSH_PRIVATE_KEY_FILE".toList = none ∧
    c1run.toOption.map (fun p => getE p.1 "SSH_PRIVATE_KEY_FILE".toList) =
      some (some "/k".toList) ∧
    c1run.toOption.map (fun p => p.2.isEmpty) = some false := by decide

/-- Claim C2, amended (corrected): for every owner/repo pair made of
nonempty identifier-safe components whose repo part does not end in
`.git`, all six input shapes (plain, HTTPS URL, SSH URL, each with or
without a trailing `.git`) normalize to the same canonical `owner/repo`
string; and every input that is nonempty after stripping and matches none
of the three shape regexes raises the unrecognized-format error.  The
original claim fails on the empty input, which matches no shape yet is
returned as `""` without an error. -/
theorem normalize_github_repo_c2_amended :
    (∀ o r : Str, o ≠ [] → r ≠ [] → (∀ c ∈ o, isSafeChar c = true) →
      (∀ c ∈ r, isSafeChar c = true) → ¬ gitL <:+ r →
      (normalize_github_repo (o ++ '/' :: r) = .ok (o ++ '/' :: r) ∧
       normalize_github_repo (o ++ '/' :: (r ++ gitL)) = .ok (o ++ '/' :: r) ∧
       normalize_github_repo (httpsPre ++ (o ++ '/' :: r)) = .ok (o ++ '/' :: r) ∧
       normalize_github_repo (httpsPre ++ (o ++ '/' :: (r ++ gitL))) = .ok (o ++ '/' :: r) ∧
       normalize_github_repo (gitAtPre ++ (o ++ '/' :: r)) = .ok (o ++ '/' :: r) ∧
       normalize_github_repo (gitAtPre ++ (o ++ '/' :: (r ++ gitL))) = .ok (o ++ '/' :: r))) ∧
    (∀ v : Str, pyStrip v ≠ [] → match1 (pyStrip v) = none → match2 (pyStrip v) = none →
      match3 (pyStrip v) = none →
      normalize_github_repo v = .error (unrecognizedMsg v)) := by
  constructor
  · intro o r ho hr hso hsr hgit
    exact ⟨normalize_plain o r ho hr hso hsr hgit, normalize_plain_git o r ho hr hso hsr,
      normalize_https o r ho hr hso hsr hgit, normalize_https_git o r ho hr hso hsr,
      normalize_ssh o r ho hr hso hsr hgit, normalize_ssh_git o r ho hr hso hsr⟩
  · intro v h1 h2 h3 h4
    simp [normalize_github_repo, h1, h2, h3, h4]

theorem normalize_github_repo_c2_witness :
    normalize_github_repo ("acme".toList ++ '/' :: "widgets".toList) =
      .ok ("acme".toList ++ '/' :: "widgets".toList) ∧
    normalize_github_repo (httpsPre ++ ("acme".toList ++ '/' :: ("widgets".toList ++ gitL))) =
      .ok ("acme".toList ++ '/' :: "widgets".toList) ∧
    normalize_github_repo (gitAtPre ++ ("acme".toList ++ '/' :: "widgets".toList)) =
      .ok ("acme".toList ++ '/' :: "widgets".toList) ∧
    normalize_github_repo "!!".toList = .error (unrecognizedMsg "!!".toList) := by
  have h := normalize_github_repo_c2_amended.1 "acme".toList "widgets".toList (by decide)
    (by decide) (by decide) (by decide) (by decide)
  exact ⟨h.1, h.2.2.2.1, h.2.2.2.2.1,
    normalize_github_repo_c2_amended.2 "!!".toList (by decide) (by decide) (by decide)
      (by decide)⟩

/-- Claim C2 counterexample: the empty string matches none of the three
shape regexes, yet `normalize_github_repo` returns `ok ""` instead of
raising `UnrecognizedFormatError`. -/
theorem normalize_github_repo_c2_counterexample :
    normalize_github_repo [] = .ok [] ∧
    match1 (pyStrip []) = none ∧ match2 (pyStrip []) = none ∧
    match3 (pyStrip []) = none := by decide

/-- Claim C3 (confirmed): `github_clone_url` maps `("acme/widgets",
"public")` to the HTTPS clone URL, `("acme/widgets", "private")` to the
SSH clone URL, and any visibility paired with an empty repo identity to
the empty string; as a Lean function it is pure by construction. -/
theorem github_clone_url_c3 :
    github_clone_url "acme/widgets".toList "public".toList =
      "https://github.com/acme/widgets.git".toList ∧
    github_clone_url "acme/widgets".toList "private".toList =
      "git@github.com:acme/widgets.git".toList ∧
    (∀ v : Str, github_clone_url [] v = []) :=
  ⟨by decide, by decide, fun v => by simp [github_clone_url]⟩

/-- Claim C4, amended (corrected): exit codes are 0 on success; 2 for the
SSH prerequisites (missing key in non-interactive mode, key file not
found, keyscan failure) and Cloudflare token problems; but 1 — not 2 —
for a missing required tool, an unreachable cluster, and a missing
root-application manifest (`sys.exit(1)` at bootstrap.py lines 859, 875,
825). -/
theorem exit_codes_c4_amended :
    check_tools (fun t => !(t == "helm".toList)) ["kubectl".toList, "helm".toList] =
      .error (.exited 1) ∧
    check_kube_connectivity false = .error (.exited 1) ∧
    sshRun c4sshArgs [] c4env "/repo".toList sshTestWorld = .error (.exited 2) ∧
    apply_root_app (some "gitops/clusters/dev/root-app.yaml".toList) false [] true =
      .error (.exited 1) ∧
    exitCodeOf (validationRun false (fun _ => true) true) = 0 := by decide

/-- Claim C4 counterexample: with every tool missing from `PATH`,
`ValidationModule._check_tools` exits with code 1, not the claimed 2. -/
theorem exit_codes_c4_counterexample :
    check_tools (fun _ => false) ["kubectl".toList, "helm".toList] = .error (.exited 1) ∧
    Halt.exited 1 ≠ Halt.exited 2 := by decide

/-- Claim C5, amended (corrected): for the one core field that has a CLI
override (`REPO_REF` via `--ref`), a non-empty override wins over the
persisted value, which wins over the built-in default `main`; the
environment field `ENV` has no CLI value override at all, so in a
non-interactive run the resolved environment is always the persisted
value (or the default `kubeadm`), never an override. -/
theorem coreRun_c5_amended :
    (∀ (args : CoreArgs) (existing env : EnvMap) (o : PromptOracle) (m : EnvMap) (ov : Str),
      args.non_interactive = true → args.repo_ref = some ov → ov ≠ [] →
      coreRun args existing env o = .ok m →
      getE m "REPO_REF".toList = some (pyStrip ov)) ∧
    (∀ (args : CoreArgs) (existing env : EnvMap) (o : PromptOracle) (m : EnvMap),
      args.non_interactive = true → (args.repo_ref = none ∨ args.repo_ref = some []) →
      coreRun args existing env o = .ok m →
      getE m "REPO_REF".toList = some (getDE existing "REPO_REF".toList "main".toList)) ∧
    (∀ (args : CoreArgs) (existing env : EnvMap) (o : PromptOracle) (m : EnvMap),
      args.non_interactive = true →
      coreRun args existing env o = .ok m →
      getE m "ENV".toList = some (getDE existing "ENV".toList "kubeadm".toList)) := by
  refine ⟨?_, ?_, ?_⟩
  · intro args existing env o m ov hni hov hne hrun
    obtain ⟨res, hres, rfl⟩ := coreRun_ok_fields args existing env o m hrun
    rw [coreResolve_noninteractive args existing o hni, hov] at hres
    obtain ⟨-, href, -⟩ := corePost_ok_fields _ _ _ _ _ _ _ _ res hres
    rw [getE_applySets_ref, href]
    simp [hne]
  · intro args existing env o m hni hov hrun
    obtain ⟨res, hres, rfl⟩ := coreRun_ok_fields args existing env o m hrun
    rw [coreResolve_noninteractive args existing o hni] at hres
    rcases hov with hov | hov
    · rw [hov] at hres
      obtain ⟨-, href, -⟩ := corePost_ok_fields _ _ _ _ _ _ _ _ res hres
      rw [getE_applySets_ref, href]
    · rw [hov] at hres
      obtain ⟨-, href, -⟩ := corePost_ok_fields _ _ _ _ _ _ _ _ res hres
      rw [getE_applySets_ref, href]
      simp
  · intro args existing env o m hni hrun
    obtain ⟨res, hres, rfl⟩ := coreRun_ok_fields args existing env o m hrun
    rw [coreResolve_noninteractive args existing o hni] at hres
    obtain ⟨henv, -, -⟩ := corePost_ok_fields _ _ _ _ _ _ _ _ res hres
    rw [getE_applySets_env_name, henv]

theorem coreRun_c5_witness :
    getE c5m "REPO_REF".toList = some (pyStrip " dev ".toList) ∧
    getE c5m "ENV".toList = some (getDE c5existing "ENV".toList "kubeadm".toList) :=
  ⟨coreRun_c5_amended.1 c5args c5existing [] noPrompts c5m " dev ".toList rfl rfl (by decide)
      (by decide),
   coreRun_c5_amended.2.2 c5args c5existing [] noPrompts c5m rfl (by decide)⟩

/-- Claim C5 counterexample: with persisted `ENV=prod` and every CLI
override the parser offers `CoreModule` set to `staging` (there is no
`--env` value override; only `--ref` takes a value), the resolved
environment in a non-interactive run is `prod`, not the claimed
`staging`. -/
theorem coreRun_c5_counterexample :
    (coreRun cexArgs [("ENV".toList, "prod".toList)] [] noPrompts).toOption.bind
      (fun m => getE m "ENV".toList) = some "prod".toList ∧
    some "prod".toList ≠ some "staging".toList := by decide

/-- Claim C6 (confirmed): with the apply-root-application flag resolved
to `"true"`, a nonempty path, and an existing manifest file, a content
with no `kind:` marker is skipped without error and without issuing any
apply command, while a content with a marker triggers exactly one
`kubectl apply` of that manifest. -/
theorem argo_root_app_c6 (env : EnvMap) (p content : Str)
    (hflag : getE env "APPLY_ROOT_APP".toList = some "true".toList)
    (hpath : getE env "ROOT_APP_PATH".toList = some p) (hp : p ≠ []) :
    (hasKindMarker content = false → argoRootStep env true content true = .ok []) ∧
    (hasKindMarker content = true →
      argoRootStep env true content true = .ok [.applyManifest p]) := by
  have hcond : (getE env "APPLY_ROOT_APP".toList == some "true".toList) = true := by
    rw [hflag]; rfl
  constructor <;> intro hk <;>
    (unfold argoRootStep
     rw [if_pos hcond, hpath]
     simp [apply_root_app, hp, hk])

theorem argo_root_app_c6_witness :
    argoRootStep c6env true "# placeholder\n".toList true = .ok [] ∧
    argoRootStep c6env true "apiVersion: argoproj.io/v1alpha1\nkind: Application\n".toList true =
      .ok [.applyManifest "gitops/clusters/dev/root-app.yaml".toList] :=
  ⟨(argo_root_app_c6 c6env "gitops/clusters/dev/root-app.yaml".toList "# placeholder\n".toList
      (by decide) (by decide) (by decide)).1 (by decide),
   (argo_root_app_c6 c6env "gitops/clusters/dev/root-app.yaml".toList
      "apiVersion: argoproj.io/v1alpha1\nkind: Application\n".toList
      (by decide) (by decide) (by decide)).2 (by decide)⟩

/-- Claim C7 (confirmed): `_validate_slug` accepts exactly the strings
matching `[alnum][alnum-dash]*` — so `abc-123` passes while `-bad` and
the empty string fail — and its error names the field and the offending
value. -/
theorem validate_slug_c7 :
    (∀ f : Str, validate_slug "abc-123".toList f = .ok ()) ∧
    (∀ f : Str, validate_slug "-bad".toList f = .error (slugErrMsg f "-bad".toList)) ∧
    (∀ f : Str, validate_slug [] f = .error (slugErrMsg f [])) ∧
    (∀ v f : Str, validate_slug v f = .ok () ↔ slugSpecProp v) := by
  refine ⟨?_, ?_, ?_, ?_⟩
  · intro f
    unfold validate_slug
    rw [if_pos (show slugOk "abc-123".toList = true by decide)]
  · intro f
    unfold validate_slug
    rw [if_neg (show ¬ slugOk "-bad".toList = true by decide)]
  · intro f
    unfold validate_slug
    rw [if_neg (show ¬ slugOk ([] : Str) = true by decide)]
  · intro v f
    rw [validate_slug_ok_iff v f, slugOk_iff_spec v]

/-- Claim C8 (confirmed): after a successful `CoreModule.run`, the
resolved `ROOT_APP_PATH` is present and nonempty; and in a
non-interactive run where no persisted value sets it (empty or
whitespace), it is the path templated from the resolved environment,
`gitops/clusters/<env>/root-app.yaml`. -/
theorem coreRun_c8_root :
    (∀ (args : CoreArgs) (existing env : EnvMap) (o : PromptOracle) (m : EnvMap),
      coreRun args existing env o = .ok m →
      ∃ p, getE m "ROOT_APP_PATH".toList = some p ∧ p ≠ []) ∧
    (∀ (args : CoreArgs) (existing env : EnvMap) (o : PromptOracle) (m : EnvMap),
      args.non_interactive = true →
      pyStrip (getDE existing "ROOT_APP_PATH".toList []) = [] →
      coreRun args existing env o = .ok m →
      getE m "ROOT_APP_PATH".toList =
        some (rootTemplate (getDE existing "ENV".toList "kubeadm".toList))) := by
  constructor
  · intro args existing env o m hrun
    obtain ⟨res, hres, rfl⟩ := coreRun_ok_fields args existing env o m hrun
    obtain ⟨org, envN, argo, applyR, rootP, vis, repo, ref, hcp⟩ :=
      coreResolve_ok_corePost args existing o res hres
    exact ⟨res.root_app_path, getE_applySets_root env res,
      corePost_ok_root_ne_nil org envN argo applyR rootP vis repo ref res hcp⟩
  · intro args existing env o m hni hempty hrun
    obtain ⟨res, hres, rfl⟩ := coreRun_ok_fields args existing env o m hrun
    rw [coreResolve_noninteractive args existing o hni] at hres
    obtain ⟨-, -, hroot⟩ := corePost_ok_fields _ _ _ _ _ _ _ _ res hres
    rw [getE_applySets_root, hroot, if_pos hempty]

theorem coreRun_c8_witness :
    (∃ p, getE c8m "ROOT_APP_PATH".toList = some p ∧ p ≠ []) ∧
    getE c8m "ROOT_APP_PATH".toList =
      some (rootTemplate (getDE ([] : EnvMap) "ENV".toList "kubeadm".toList)) :=
  ⟨coreRun_c8_root.1 ⟨none, true, false⟩ [] [] noPrompts c8m (by decide),
   coreRun_c8_root.2 ⟨none, true, false⟩ [] [] noPrompts c8m rfl (by decide) (by decide)⟩

/-- Claim C9, amended (corrected): ensure-namespace failures are always
caught and logged as warnings; secret-apply failures are caught and
logged when no labels are requested or when the `yaml` module is
importable, but in the stdlib fallback path (labels requested, `yaml`
unavailable) a failing apply or label command escapes
`_apply_kube_secret` as an exception. -/
theorem apply_secret_c9_amended :
    (∀ (w : KubeWorld) (ns : Str), (ensure_namespace w ns).raised = false) ∧
    (∀ (w : KubeWorld) (ns name : Str) (data labels : List (Str × Str)),
      labels = [] ∨ w.yamlAvailable = true →
      (apply_kube_secret w ns name data labels).raised = false) := by
  constructor
  · intro w ns
    cases h1 : w.nsDryRunOk <;> cases h2 : w.nsApplyOk <;> simp [ensure_namespace, h1, h2]
  · intro w ns name data labels h
    rcases h with h | h
    · subst h
      cases hc : w.createSecretOk <;> cases ha : w.applyOk <;>
        simp [apply_kube_secret, hc, ha]
    · cases hc : w.createSecretOk <;> cases ha : w.applyOk <;>
        simp [apply_kube_secret, hc, ha, h]

theorem apply_secret_c9_witness :
    (ensure_namespace ⟨false, false, true, true, true, true⟩ "argocd".toList).raised = false ∧
    (apply_kube_secret ⟨true, true, true, false, false, true⟩ "cert-manager".toList
      "cloudflare-api-token".toList [("api-token".toList, "t".toList)] []).raised = false :=
  ⟨apply_secret_c9_amended.1 ⟨false, false, true, true, true, true⟩ "argocd".toList,
   apply_secret_c9_amended.2 ⟨true, true, true, false, false, true⟩ "cert-manager".toList
     "cloudflare-api-token".toList [("api-token".toList, "t".toList)] [] (Or.inl rfl)⟩

/-- Claim C9 counterexample: with labels requested and the `yaml` module
unavailable (the documented stdlib-only configuration), a failing apply
command inside `_apply_kube_secret` escapes as an exception instead of
being logged as a warning. -/
theorem apply_secret_c9_counterexample :
    (apply_kube_secret ⟨true, true, true, false, false, true⟩ "argocd".toList
      "repo-git-ssh".toList [("type".toList, "git".toList)]
      [("argocd.argoproj.io/secret-type".toList, "repository".toList)]).raised = true := by
  decide

/-- Claim C10, amended (corrected): writing a map with `_write_env_file`
and parsing the result with `_parse_env_file` returns the same map (as a
key-lookup function) provided keys are nonempty, `#`-free at the front,
and contain no `=`, whitespace, or newline, and values contain no
backslash, double quote, or newline.  The original claim's inclusion of
values with double quotes or backslashes is wrong: the writer escapes
them but the parser never unescapes. -/
theorem env_file_roundtrip_c10 (m : EnvMap) (hnd : (m.map Prod.fst).Nodup)
    (hk : ∀ kv ∈ m, kv.1 ≠ [] ∧ kv.1.head? ≠ some '#' ∧ '=' ∉ kv.1 ∧
      ∀ c ∈ kv.1, isPySpace c = false)
    (hv : ∀ kv ∈ m, '\\' ∉ kv.2 ∧ '"' ∉ kv.2 ∧ '\n' ∉ kv.2) :
    ∀ k, getE (parse_env_file (write_env_file m)) k = getE m k :=
  env_roundtrip m hnd hk hv

theorem env_file_roundtrip_c10_witness :
    getE (parse_env_file (write_env_file
      [("B".toList, "y z".toList), ("A".toList, "x".toList)])) "A".toList =
      getE [("B".toList, "y z".toList), ("A".toList, "x".toList)] "A".toList :=
  env_file_roundtrip_c10 [("B".toList, "y z".toList), ("A".toList, "x".toList)]
    (by decide) (by decide) (by decide) "A".toList

/-- Claim C10 counterexample: a value consisting of a single backslash is
written escaped as `"\\"`, but the parser only strips the outer quotes,
so the round trip returns two backslashes. -/
theorem env_file_roundtrip_c10_counterexample :
    parse_env_file (write_env_file [("K".toList, ['\\'])]) =
      [("K".toList, ['\\', '\\'])] ∧
    ([("K".toList, ['\\', '\\'])] : EnvMap) ≠ [("K".toList, ['\\'])] := by decide
